import Mathlib

/-!
# PlaySplit: match lifecycle and settlement engine

A shallow embedding of `backend/src/models/Match.js` (the Match document, its
virtuals, its pre-save hook and its methods) and of the route handlers of
`backend/src/routes/matches.js` that drive the match state machine.

Conventions of the embedding

* Amounts and counts (`totalCost`, `maxPlayers`, `duration`, the amounts of a
  request) are embedded as `Int`: the integers that are doubles.  The
  validators of the routes also accept numbers with a fractional part; those
  are outside the embedding, and the statements about amounts are statements
  about integer amounts.  A quotient of two such numbers is the double nearest
  to the exact quotient, and `ceilDiv` rounds accordingly.  The amounts derived
  by a division (`costPerPlayer` and what is copied from it) are embedded as
  `Num`, which adds the three non-finite results a division by zero produces.
* `new Date()` is a parameter `now` (milliseconds).
* A reference to a user is the identifier of the user, a natural number.  In a
  document in memory the path of a reference holds either the identifier or,
  after `populate`, the user document; `toString()` of the former is the text
  of the identifier, `toString()` of the latter is the inspection text of the
  document.  A record carries the flag `populated` for that reason, and a match
  the flag `organizerPopulated`; in the store both are `false`.  The users a
  match references exist: accounts are deactivated, never deleted
  (`routes/auth.js`).
* A missing string (`undefined`) is the empty string: the `required` validator
  of the document library rejects both alike.
* Request strings are embedded as they arrive; the `trim` of a sanitizer or of
  the schema is applied where the source applies it.
-/

namespace PlaySplit

/-! ## Numbers -/

/-- A JavaScript number as far as the engine can produce one: an integer, or one
of the results of dividing by zero. -/
inductive Num where
  | fin (v : Int)
  | posInf
  | negInf
  | nan
  deriving DecidableEq, Repr

namespace Num

/-- JavaScript truthiness of a number: `0` and `NaN` are falsy. -/
def truthy : Num → Bool
  | fin v => v != 0
  | posInf => true
  | negInf => true
  | nan => false

/-- The schema validator `min: 0` (`value >= 0`); `NaN` is rejected by the cast
to Number before any validator runs. -/
def atLeastZero : Num → Bool
  | fin v => decide (0 ≤ v)
  | posInf => true
  | negInf => false
  | nan => false

/-- JavaScript `+` on numbers. -/
def add : Num → Num → Num
  | fin a, fin b => fin (a + b)
  | nan, _ => nan
  | _, nan => nan
  | posInf, negInf => nan
  | negInf, posInf => nan
  | posInf, _ => posInf
  | _, posInf => posInf
  | negInf, _ => negInf
  | _, negInf => negInf

end Num

/-- The quotient `a / b` of two naturals rounded to the nearest natural, a tie
going to the even neighbour: the rounding of the arithmetic on doubles. -/
def roundHalfEven (a b : Nat) : Nat :=
  let q := a / b
  let r := a % b
  if 2 * r < b then q
  else if b < 2 * r then q + 1
  else if q % 2 = 0 then q else q + 1

/-- The recursion of `log2`, with a bound on the number of halvings. -/
def log2Aux : Nat → Nat → Nat
  | 0, _ => 0
  | fuel + 1, n => if n < 2 then 0 else log2Aux fuel (n / 2) + 1

/-- The integer part of the binary logarithm of a positive natural. -/
def log2 (n : Nat) : Nat := log2Aux n n

/-- The binary exponent of the last place of the double nearest to `a / b`, for
positive `a` and `b`: the integer part of `log2 (a / b)` less 52 (a double has
53 significant bits), and `-1074` in the subnormal range. -/
def quotientExponent (a b : Nat) : Int :=
  let d : Int := (log2 a : Int) - (log2 b : Int)
  let l : Int := if b * 2 ^ d.toNat ≤ a * 2 ^ (-d).toNat then d else d - 1
  max (l - 52) (-1074)

/-- The double `a / b` for positive integers `a` and `b` that are doubles, as a
fraction: its numerator, and its denominator, a power of two.  The quotient is
scaled by the exponent of its last place, rounded to an integer and scaled
back. -/
def divDouble (a b : Nat) : Nat × Nat :=
  let e := quotientExponent a b
  let up := (-e).toNat
  let down := e.toNat
  (roundHalfEven (a * 2 ^ up) (b * 2 ^ down) * 2 ^ down, 2 ^ up)

/-- `Math.ceil(t / n)` on integers.  For `n = 0` the quotient is `Infinity`,
`-Infinity` or `NaN` and `Math.ceil` returns it unchanged.  Otherwise the
quotient is the double nearest to the exact quotient, and `Math.ceil` is taken
of that double: of a positive one the ceiling, of a negative one the negated
integer part of its absolute value. -/
def ceilDiv (t n : Int) : Num :=
  if n = 0 then
    (if 0 < t then Num.posInf else if t < 0 then Num.negInf else Num.nan)
  else if t = 0 then Num.fin 0
  else
    let q := divDouble t.natAbs n.natAbs
    if decide (0 < t) = decide (0 < n) then Num.fin (((q.1 + q.2 - 1) / q.2 : Nat) : Int)
    else Num.fin (-((q.1 / q.2 : Nat) : Int))

/-- Assignment of `value` to a path of type Number that holds `current`: the
cast of the document library refuses `NaN`, and the path keeps its value. -/
def assignNumber (current value : Num) : Num :=
  if value = Num.nan then current else value

/-- The characters `trim` removes: the white space and the line terminators of
the language. -/
def isSpace (c : Char) : Bool :=
  let n := c.toNat
  n == 32 || (decide (9 ≤ n) && decide (n ≤ 13)) || n == 160 || n == 5760 ||
  (decide (8192 ≤ n) && decide (n ≤ 8202)) || n == 8232 || n == 8233 || n == 8239 ||
  n == 8287 || n == 12288 || n == 65279

/-- `s.trim()`: the sanitizer `trim()` of the validation chains and the schema
option `trim: true`. -/
def trim (s : String) : String :=
  String.mk (((s.data.dropWhile isSpace).reverse.dropWhile isSpace).reverse)

/-- `Math.round(x / 60000)` on an integer `x`: the nearest integer, halves
rounded up. -/
def roundMinutes (x : Int) : Int := (x + 30000) / 60000

/-! ## Data model (`models/Match.js`) -/

/-- Participation status, `enum: ['joined', 'opted-out', 'removed']`. -/
inductive ParticipationStatus where
  | joined
  | optedOut
  | removed
  deriving DecidableEq, Repr

/-- Payment status of a participation record,
`enum: ['pending', 'paid', 'failed', 'refunded']`. -/
inductive PaymentStatus where
  | pending
  | paid
  | failed
  | refunded
  deriving DecidableEq, Repr

/-- Match status,
`enum: ['draft', 'open', 'started', 'completed', 'cancelled', 'pending-details']`. -/
inductive MatchStatus where
  | draft
  | «open»
  | started
  | completed
  | cancelled
  | pendingDetails
  deriving DecidableEq, Repr

/-- The allowed values of `paymentMethod`, `enum: ['upi', 'cash', 'card', 'wallet']`. -/
def paymentMethods : List String := ["upi", "cash", "card", "wallet"]

/-- The allowed values of `turfType`, `enum: ['full', 'half', '7v7', '5v5']`. -/
def turfTypes : List String := ["full", "half", "7v7", "5v5"]

/-- One record of `playerParticipationSchema`.  `user` is the identifier of the
user the record references; `populated` tells whether, in the document in
memory, the path `user` holds the user document in place of the identifier. -/
structure Player where
  user : Nat
  joinedAt : Int
  status : ParticipationStatus := ParticipationStatus.joined
  paymentStatus : PaymentStatus := PaymentStatus.pending
  paymentMethod : Option String := none
  amountToPay : Num
  paidAmount : Num := Num.fin 0
  paymentId : Option String := none
  paidAt : Option Int := none
  leftEarly : Bool := false
  leftAt : Option Int := none
  populated : Bool := false
  deriving DecidableEq, Repr

/-- The fields of `matchSchema` the engine reads or writes.  `organizer` is the
identifier of the organizer; `organizerPopulated` tells whether, in the
document in memory, the path `organizer` holds the user document. -/
structure Match where
  matchId : String
  title : String
  description : String := ""
  organizer : Nat
  venueName : String
  venueAddress : String
  dateTime : Int
  duration : Int := 90
  turfType : String := "full"
  maxPlayers : Int
  costPerPlayer : Num := Num.fin 0
  totalCost : Int := 0
  status : MatchStatus := MatchStatus.open
  isQuickMatch : Bool := false
  detailsCompletedAt : Option Int := none
  actualEndTime : Option Int := none
  actualDuration : Option Int := none
  players : List Player := []
  organizerPopulated : Bool := false
  deriving DecidableEq, Repr

/-! ## Virtuals -/

/-- Virtual `joinedPlayers`: `this.players.filter(player => player.status === 'joined')`. -/
def Match.joinedPlayers (m : Match) : List Player :=
  m.players.filter (fun p => decide (p.status = ParticipationStatus.joined))

/-- Virtual `paidPlayers`. -/
def Match.paidPlayers (m : Match) : List Player :=
  m.players.filter (fun p => decide (p.paymentStatus = PaymentStatus.paid))

/-- Virtual `availableSpots`: `this.maxPlayers - this.joinedPlayers.length`. -/
def Match.availableSpots (m : Match) : Int :=
  m.maxPlayers - (m.joinedPlayers.length : Int)

/-- Virtual `totalCollected`: the `reduce` over the roster, from the left. -/
def Match.totalCollected (m : Match) : Num :=
  m.players.foldl
    (fun sum p => if p.paymentStatus = PaymentStatus.paid then Num.add sum p.paidAmount else sum)
    (Num.fin 0)

/-! ## Methods -/

/-- Update in place the first record that satisfies `q`: what the source does
when it mutates the object returned by `Array.prototype.find`. -/
def modifyFirst (q : Player → Bool) (f : Player → Player) : List Player → List Player
  | [] => []
  | x :: xs => if q x then f x :: xs else x :: modifyFirst q f xs

/-- The callback `p => p.user.toString() === userId.toString()`; `userId` is an
identifier in every call.  The two texts are equal when `p.user` holds the same
identifier; when `p.user` holds a populated user document its text is the
inspection text of the document, which is the text of no identifier. -/
def isUser (userId : Nat) (p : Player) : Bool := !p.populated && decide (p.user = userId)

/-- The reactivation of an opted-out record in `addPlayer`:
`existingPlayer.status = 'joined'; existingPlayer.joinedAt = new Date()`. -/
def reactivate (now : Int) (p : Player) : Player :=
  { p with status := ParticipationStatus.joined, joinedAt := now }

/-- The record `addPlayer` pushes, `{ user, amountToPay, status: 'joined' }`, with
the schema defaults of the other paths (`joinedAt` is `Date.now`). -/
def newPlayer (userId : Nat) (amount : Num) (now : Int) : Player :=
  { user := userId, joinedAt := now, amountToPay := amount, status := ParticipationStatus.joined }

/-- Method `addPlayer(userId, amountToPay = null)`.  The result is the match after
the call, or the message of the thrown `Error`. -/
def Match.addPlayer (m : Match) (userId : Nat) (amountToPay : Option Int) (now : Int) :
    Except String Match :=
  match m.players.find? (isUser userId) with
  | some existingPlayer =>
    if existingPlayer.status = ParticipationStatus.optedOut then
      Except.ok { m with players := modifyFirst (isUser userId) (reactivate now) m.players }
    else Except.error "Player already joined"
  | none =>
    if m.maxPlayers ≤ (m.joinedPlayers.length : Int) then Except.error "Match is full"
    else
      let amount : Num :=
        match amountToPay with
        | some a => if a != 0 then Num.fin a else m.costPerPlayer
        | none => m.costPerPlayer
      Except.ok { m with players := m.players ++ [newPlayer userId amount now] }

/-- The paid branch of `removePlayer`:
`player.status = 'removed'; player.leftEarly = true; player.leftAt = new Date()`. -/
def markRemoved (now : Int) (p : Player) : Player :=
  { p with status := ParticipationStatus.removed, leftEarly := true, leftAt := some now }

/-- Method `removePlayer(userId)`. -/
def Match.removePlayer (m : Match) (userId : Nat) (now : Int) : Except String Match :=
  match m.players.find? (isUser userId) with
  | none => Except.error "Player not found in match"
  | some player =>
    if player.paymentStatus = PaymentStatus.paid then
      Except.ok { m with players := modifyFirst (isUser userId) (markRemoved now) m.players }
    else
      Except.ok { m with players := m.players.filter (fun p => !isUser userId p) }

/-- The argument `paymentDetails` of `updatePaymentStatus`; every key may be
absent (`paymentDetails = {}` by default). -/
structure PaymentDetails where
  amount : Option Int := none
  method : Option String := none
  paymentId : Option String := none
  deriving DecidableEq, Repr

/-- The assignments of `updatePaymentStatus` on the record it found:
`paymentStatus` always, and `paidAmount`, `paymentMethod`, `paymentId`, `paidAt`
when the new status is `'paid'`.  `paymentDetails.amount || player.amountToPay`
takes the amount when it is present and not zero. -/
def applyPayment (status : PaymentStatus) (paymentDetails : PaymentDetails) (now : Int)
    (p : Player) : Player :=
  if status = PaymentStatus.paid then
    { p with
      paymentStatus := status
      paidAmount :=
        (match paymentDetails.amount with
         | some a => if a != 0 then Num.fin a else p.amountToPay
         | none => p.amountToPay)
      paymentMethod := paymentDetails.method
      paymentId := paymentDetails.paymentId
      paidAt := some now }
  else { p with paymentStatus := status }

/-- Method `updatePaymentStatus(userId, status, paymentDetails = {})`. -/
def Match.updatePaymentStatus (m : Match) (userId : Nat) (status : PaymentStatus)
    (paymentDetails : PaymentDetails) (now : Int) : Except String Match :=
  match m.players.find? (isUser userId) with
  | none => Except.error "Player not found in match"
  | some _ =>
    Except.ok { m with
      players := modifyFirst (isUser userId) (applyPayment status paymentDetails now) m.players }

/-- Number of joined records of a roster, the length of `joinedPlayers`. -/
def joinedCount (ps : List Player) : Nat :=
  (ps.filter (fun p => decide (p.status = ParticipationStatus.joined))).length

/-! ## Saving a document

`save()` of the document library first validates the document against the
schema and rejects it with a `ValidationError` when a validator fails; then the
`pre('save')` hook of the schema runs and the document is written in one
write. -/

/-- Validators of `playerParticipationSchema`: `min: 0` on `amountToPay` and
`paidAmount`, `enum` on `paymentMethod` (validators skip `null`). -/
def Player.schemaValid (p : Player) : Bool :=
  p.amountToPay.atLeastZero && p.paidAmount.atLeastZero &&
  (match p.paymentMethod with
   | none => true
   | some s => paymentMethods.contains s)

/-- Validator of `maxPlayers`: `min: 6` and the custom validator
`this.isQuickMatch ? value <= 1000 : value <= 22`. -/
def maxPlayersValid (isQuickMatch : Bool) (value : Int) : Bool :=
  decide (6 ≤ value) && (if isQuickMatch then decide (value ≤ 1000) else decide (value ≤ 22))

/-- Validators of `matchSchema` on the embedded fields: the `required`
functions of `title` and `venue`, `min`/`max` of `duration`, the `turfType`
enum, `maxPlayers`, `min: 0` of `costPerPlayer` and `totalCost`, and the
validators of every roster record. -/
def Match.schemaValid (m : Match) : Bool :=
  m.matchId != "" &&
  (m.isQuickMatch || m.title != "") &&
  ((m.isQuickMatch || m.status == MatchStatus.completed) ||
    (m.venueName != "" && m.venueAddress != "")) &&
  decide (30 ≤ m.duration) && decide (m.duration ≤ 300) &&
  turfTypes.contains m.turfType &&
  maxPlayersValid m.isQuickMatch m.maxPlayers &&
  m.costPerPlayer.atLeastZero &&
  decide (0 ≤ m.totalCost) &&
  m.players.all Player.schemaValid

/-- Change tracking of the document at the time `save()` is called: whether the
document is new, and `isModified(path)` for the three paths the hook asks about.
On a loaded document an assignment marks a path modified when the assigned
value differs from the current one; on a new document every assignment does. -/
structure Modified where
  isNew : Bool := false
  totalCost : Bool := false
  maxPlayers : Bool := false
  costPerPlayer : Bool := false
  deriving DecidableEq, Repr

/-- The body of the `forEach` in the hook:
`if (player.paymentStatus === 'pending') player.amountToPay = this.costPerPlayer`. -/
def syncPending (cost : Num) (p : Player) : Player :=
  if p.paymentStatus = PaymentStatus.pending then { p with amountToPay := cost } else p

/-- The hook `matchSchema.pre('save', ...)`.  Its assignment to `costPerPlayer`
takes effect unless the value is `NaN`, and marks the path modified when it
does. -/
def preSave (tr : Modified) (m : Match) : Match :=
  let recompute := tr.totalCost || tr.maxPlayers
  let computed := ceilDiv m.totalCost m.maxPlayers
  let assigned := recompute && computed != Num.nan
  let cost := if assigned then computed else m.costPerPlayer
  let costModified :=
    tr.costPerPlayer || (assigned && (tr.isNew || cost != m.costPerPlayer))
  { m with
    costPerPlayer := cost
    players := if costModified then m.players.map (syncPending cost) else m.players }

/-- Call `save()`: the stored document, or `none` when validation rejects it
(nothing is written then). -/
def save (tr : Modified) (m : Match) : Option Match :=
  if m.schemaValid then some (preSave tr m) else none

/-! ## Route handlers (`routes/matches.js`)

Each handler is embedded after its middleware chain (`authenticateToken`,
`loadMatch`, `requireMatchOrganizer`) has let the request through, as a
function from the match the store holds to the response, the match the store
holds afterwards, the events broadcast to the room of the match and the users
whose `stats.matchesPlayed` is incremented.  The handlers of join and leave
compare references, and work on the document `loadMatch` builds from the
stored match; the other handlers read no reference. -/

/-- The JSON envelope of a response with its HTTP status.  `message` is `none`
for the text the validation library assembles from its validators;
`errorName` is the `error.name` the error handler adds. -/
structure Response where
  status : Nat
  success : Bool
  message : Option String
  errorName : Option String := none
  deriving DecidableEq, Repr

/-- What `errorHandler` answers to the `ValidationError` thrown by `save()`. -/
def validationErrorResponse : Response :=
  { status := 400, success := false, message := none, errorName := some "ValidationError" }

/-- Events emitted with `io.to('match-' + matchId).emit(...)`. -/
inductive Event where
  | matchCancelled (matchId : String) (message : String) (reason : Option String)
  | playerJoined (matchId : String) (user : Nat)
  | playerLeft (matchId : String) (user : Nat)
  | matchStarted (matchId : String) (message : String)
  | matchCompleted (matchId : String) (message : String)
  | paymentRequested (matchId : String) (costPerPlayer : Num)
  deriving DecidableEq, Repr

/-- The observable result of a handler. -/
structure Outcome where
  response : Response
  stored : Match
  events : List Event := []
  played : List Nat := []
  deriving DecidableEq, Repr

/-- A route answers 400 itself and touches nothing. -/
def reject (m : Match) (message : String) : Outcome :=
  { response := { status := 400, success := false, message := some message }, stored := m }

/-- The users of the joined records:
`match.players.filter(p => p.status === 'joined').map(p => p.user)`. -/
def joinedUsers (m : Match) : List Nat :=
  (m.players.filter (fun p => decide (p.status = ParticipationStatus.joined))).map Player.user

/-- Handler of `DELETE /:matchId` (cancel a match). -/
def cancelMatch (m : Match) : Outcome :=
  match save {} { m with status := MatchStatus.cancelled } with
  | none => { response := validationErrorResponse, stored := m }
  | some saved =>
    { response := { status := 200, success := true, message := some "Match cancelled successfully" }
      stored := saved
      events := [Event.matchCancelled saved.matchId
        "This match has been cancelled by the organizer." none] }

/-- Handler of `DELETE /api/admin/matches/:matchId` (`routes/admin.js`), for a
match that was found; `action` is `req.body.action`, `'cancel'` by default. -/
def adminCancelMatch (m : Match) (action : Option String) : Outcome :=
  if action.getD "cancel" = "cancel" then
    match save {} { m with status := MatchStatus.cancelled } with
    | none => { response := validationErrorResponse, stored := m }
    | some saved =>
      { response :=
          { status := 200, success := true, message := some "Match cancelled successfully" }
        stored := saved
        events := [Event.matchCancelled saved.matchId
          "This match has been cancelled by admin." (some "Administrative action")] }
  else reject m "Invalid action. Only cancellation is supported."

/-- Middleware `loadMatch` on a match that exists: the document
`Match.findOne({ matchId }).populate('organizer', ...).populate('players.user', ...)`
attaches to the request.  The path `organizer` and the path `user` of every
record hold the user document. -/
def loadMatch (m : Match) : Match :=
  { m with
    organizerPopulated := true
    players := m.players.map (fun p => { p with populated := true }) }

/-- The document as the store holds it once `save()` has written it: every
reference is an identifier. -/
def asStored (m : Match) : Match :=
  { m with
    organizerPopulated := false
    players := m.players.map (fun p => { p with populated := false }) }

/-- Handler of `POST /:matchId/join`, behind `loadMatch`.  The `try`/`catch`
turns every error, that of `addPlayer` and that of `save()`, into a 400
carrying the error message. -/
def joinMatch (m : Match) (user : Nat) (now : Int) : Outcome :=
  if m.status ≠ MatchStatus.open then reject m "This match is not open for joining"
  else
    match (loadMatch m).addPlayer user none now with
    | Except.error e => reject m e
    | Except.ok m1 =>
      match save {} m1 with
      | none => { response := { status := 400, success := false, message := none }, stored := m }
      | some saved =>
        { response :=
            { status := 200, success := true, message := some "Successfully joined the match" }
          stored := asStored saved
          events := [Event.playerJoined saved.matchId user] }

/-- Handler of `POST /:matchId/leave`, behind `loadMatch`. -/
def leaveMatch (m : Match) (user : Nat) (now : Int) : Outcome :=
  if m.status = MatchStatus.completed ∨ m.status = MatchStatus.cancelled then
    reject m "Cannot leave a completed or cancelled match"
  else
    match (loadMatch m).removePlayer user now with
    | Except.error e => reject m e
    | Except.ok m1 =>
      match save {} m1 with
      | none => { response := { status := 400, success := false, message := none }, stored := m }
      | some saved =>
        { response :=
            { status := 200, success := true, message := some "Successfully left the match" }
          stored := asStored saved
          events := [Event.playerLeft saved.matchId user] }

/-- Handler of `POST /:matchId/start`. -/
def startMatch (m : Match) : Outcome :=
  if m.status ≠ MatchStatus.open then reject m "Match cannot be started"
  else
    match save {} { m with status := MatchStatus.started } with
    | none => { response := validationErrorResponse, stored := m }
    | some saved =>
      { response :=
          { status := 200, success := true, message := some "Match started successfully" }
        stored := saved
        events := [Event.matchStarted saved.matchId
          "The match has started! Payments are now open."] }

/-- Handler of `POST /:matchId/complete`.  The two `new Date()` of the quick
branch read the same clock value `now`. -/
def completeMatch (m : Match) (now : Int) : Outcome :=
  if m.status ≠ MatchStatus.started then reject m "Only a started match can be completed"
  else
    let m1 : Match :=
      if m.isQuickMatch then
        { m with
          status := MatchStatus.pendingDetails
          actualEndTime := some now
          actualDuration := some (roundMinutes (now - m.dateTime)) }
      else { m with status := MatchStatus.completed }
    match save {} m1 with
    | none => { response := validationErrorResponse, stored := m }
    | some saved =>
      { response :=
          { status := 200, success := true
            message := some (if saved.isQuickMatch
              then "Quick match ended. Please complete match details."
              else "Match completed successfully") }
        stored := saved
        events := [Event.matchCompleted saved.matchId
          (if saved.isQuickMatch
            then "Match ended! Admin will now set the final details and costs."
            else "The match has ended. Thanks for playing!")]
        played := if saved.isQuickMatch then [] else joinedUsers saved }

/-- The body of `POST /:matchId/complete-details`.  `totalCost` is `none` when
the key is absent or not numeric. -/
structure CompleteDetailsBody where
  title : String
  venueName : String
  venueAddress : String
  totalCost : Option Int
  duration : Option Int := none
  description : Option String := none
  actualPlayers : Option Int := none
  deriving DecidableEq, Repr

/-- The validation chain of complete-details: `title` not empty once trimmed,
`venue.name` and `venue.address` not empty, `totalCost` numeric, optional
`duration` an integer of at least 30, optional `actualPlayers` an integer of at
least 1. -/
def CompleteDetailsBody.valid (b : CompleteDetailsBody) : Bool :=
  trim b.title != "" && b.venueName != "" && b.venueAddress != "" &&
  b.totalCost.isSome &&
  (match b.duration with
   | none => true
   | some d => decide (30 ≤ d)) &&
  (match b.actualPlayers with
   | none => true
   | some a => decide (1 ≤ a))

/-- `a || b` on an optional number and a number: the first when it is present
and not zero. -/
def orElse (a : Option Int) (b : Int) : Int :=
  match a with
  | some v => if v != 0 then v else b
  | none => b

/-- The body of the `forEach` of complete-details: a joined record gets the new
amount and goes back to `pending`. -/
def resetJoined (cost : Num) (p : Player) : Player :=
  if p.status = ParticipationStatus.joined then
    { p with amountToPay := cost, paymentStatus := PaymentStatus.pending }
  else p

/-- `const finalPlayerCount = actualPlayers || match.joinedPlayers.length`. -/
def finalPlayerCount (m : Match) (b : CompleteDetailsBody) : Int :=
  orElse b.actualPlayers (m.joinedPlayers.length : Int)

/-- The match as complete-details has mutated it in memory when it calls
`save()`.  The strings are trimmed by the schema; `match.costPerPlayer` keeps
its value when the quotient is `NaN`, and the loop over the roster reads it
back. -/
def completeDetailsDraft (m : Match) (b : CompleteDetailsBody) (now : Int) : Match :=
  let totalCost := b.totalCost.getD 0
  let count := finalPlayerCount m b
  let cost := assignNumber m.costPerPlayer (ceilDiv totalCost count)
  { m with
    title := trim b.title
    venueName := trim b.venueName
    venueAddress := trim b.venueAddress
    description := trim (b.description.getD "")
    totalCost := totalCost
    duration := orElse b.duration (orElse m.actualDuration 90)
    maxPlayers := count
    costPerPlayer := cost
    players := m.players.map (resetJoined cost)
    status := MatchStatus.completed
    detailsCompletedAt := some now }

/-- Handler of `POST /:matchId/complete-details`. -/
def completeDetails (m : Match) (b : CompleteDetailsBody) (now : Int) : Outcome :=
  if !b.valid then reject m "Validation failed"
  else if !m.isQuickMatch || m.status != MatchStatus.pendingDetails then
    reject m "This operation is only allowed for quick matches pending details completion"
  else
    let m1 := completeDetailsDraft m b now
    let tr : Modified :=
      { totalCost := m1.totalCost != m.totalCost
        maxPlayers := m1.maxPlayers != m.maxPlayers
        costPerPlayer := m1.costPerPlayer != m.costPerPlayer }
    match save tr m1 with
    | none => { response := validationErrorResponse, stored := m }
    | some saved =>
      { response :=
          { status := 200, success := true
            message := some
              "Match details completed successfully. Payment requests sent to all players." }
        stored := saved
        events := [Event.paymentRequested saved.matchId saved.costPerPlayer]
        played := joinedUsers saved }

/-- The two statements every caller of `updatePaymentStatus` in
`routes/payments.js` runs on the loaded match:
`match.updatePaymentStatus(user, status, details); await match.save()`.
The result is the stored match, `none` when either statement throws. -/
def paymentUpdate (m : Match) (user : Nat) (status : PaymentStatus)
    (details : PaymentDetails) (now : Int) : Option Match :=
  match m.updatePaymentStatus user status details now with
  | Except.error _ => none
  | Except.ok m1 => save {} m1

/-! ## Creating and updating a match -/

/-- One element of the key `players` of a request body: the paths of
`playerParticipationSchema`.  `user` is required by the schema and carried by
every element embedded here; every other key may be absent. -/
structure PlayerBody where
  user : Nat
  amountToPay : Option Int := none
  joinedAt : Option Int := none
  status : Option ParticipationStatus := none
  paymentStatus : Option PaymentStatus := none
  paymentMethod : Option String := none
  paidAmount : Option Int := none
  paymentId : Option String := none
  paidAt : Option Int := none
  leftEarly : Option Bool := none
  leftAt : Option Int := none
  deriving DecidableEq, Repr

/-- The record the schema builds from an element of `players`, with its
defaults; `joinedAt` is `Date.now`.  An absent `amountToPay` fails the
`required` validator, which `createMatch` tests. -/
def PlayerBody.cast (r : PlayerBody) (now : Int) : Player :=
  { user := r.user
    joinedAt := r.joinedAt.getD now
    status := r.status.getD ParticipationStatus.joined
    paymentStatus := r.paymentStatus.getD PaymentStatus.pending
    paymentMethod := r.paymentMethod
    amountToPay := Num.fin (r.amountToPay.getD 0)
    paidAmount := Num.fin (r.paidAmount.getD 0)
    paymentId := r.paymentId
    paidAt := r.paidAt
    leftEarly := r.leftEarly.getD false
    leftAt := r.leftAt }

/-- The body of `POST /` (create a match): the keys the validation chain of the
route names and the other keys of the body that are paths of the embedded
schema (the route passes the whole body to `new Match`).  Every key may be
absent; the key `organizer` is overwritten by the route. -/
structure CreateBody where
  title : Option String := none
  venueName : Option String := none
  venueAddress : Option String := none
  dateTime : Option Int := none
  duration : Option Int := none
  maxPlayers : Option Int := none
  totalCost : Option Int := none
  turfType : Option String := none
  costPerPlayer : Option Int := none
  status : Option MatchStatus := none
  isQuickMatch : Option Bool := none
  matchId : Option String := none
  description : Option String := none
  players : List PlayerBody := []
  detailsCompletedAt : Option Int := none
  actualEndTime : Option Int := none
  actualDuration : Option Int := none
  deriving DecidableEq, Repr

/-- JavaScript truthiness of an optional string: absent and empty are falsy. -/
def strTruthy (s : Option String) : Bool :=
  match s with
  | some v => v != ""
  | none => false

/-- `a || b` on an optional string and a string. -/
def strOrElse (a : Option String) (b : String) : String :=
  if strTruthy a then a.getD b else b

/-- The validation chain of `POST /`.  The checks guarded by
`.if(body('isQuickMatch').not().exists())` run only when the key
`isQuickMatch` is absent; the one of `title` trims it first. -/
def CreateBody.valid (b : CreateBody) : Bool :=
  (if b.isQuickMatch.isNone then
    strTruthy (b.title.map trim) && strTruthy b.venueName && strTruthy b.venueAddress &&
    b.dateTime.isSome &&
    (match b.duration with
     | some d => decide (30 ≤ d)
     | none => false) &&
    (match b.maxPlayers with
     | some v => decide (6 ≤ v) && decide (v ≤ 22)
     | none => false) &&
    b.totalCost.isSome &&
    (match b.turfType with
     | some t => turfTypes.contains t
     | none => false)
  else
    (match b.maxPlayers with
     | some v => decide (6 ≤ v) && decide (v ≤ 1000)
     | none => true)) &&
  (match b.status with
   | some st => decide (st = MatchStatus.draft) || decide (st = MatchStatus.open)
   | none => true)

/-- The document `new Match(matchData)` builds in `POST /`, after the route has
filled in the defaults of a quick match and the schema its own defaults and
its trims.  `matchId` is the value of the schema default
`uuidv4().substr(0, 8).toUpperCase()`, used when the body has no such key. -/
def createDraft (b : CreateBody) (organizer : Nat) (matchId : String) (now : Int) : Match :=
  if b.isQuickMatch = some true then
    let noVenue := !strTruthy b.venueName && !strTruthy b.venueAddress
    { matchId := b.matchId.getD matchId
      title := trim (strOrElse b.title "Quick Match")
      description := trim (b.description.getD "")
      organizer := organizer
      venueName := trim (if noVenue then "TBD" else b.venueName.getD "TBD")
      venueAddress :=
        trim (if noVenue then "To be determined" else b.venueAddress.getD "To be determined")
      dateTime := b.dateTime.getD now
      duration := orElse b.duration 90
      turfType := strOrElse b.turfType "full"
      maxPlayers := orElse b.maxPlayers 100
      costPerPlayer := Num.fin (orElse b.costPerPlayer 0)
      totalCost := orElse b.totalCost 0
      status := MatchStatus.started
      isQuickMatch := true
      detailsCompletedAt := b.detailsCompletedAt
      actualEndTime := b.actualEndTime
      actualDuration := b.actualDuration
      players := b.players.map (fun r => r.cast now) }
  else
    { matchId := b.matchId.getD matchId
      title := trim (b.title.getD "")
      description := trim (b.description.getD "")
      organizer := organizer
      venueName := trim (b.venueName.getD "")
      venueAddress := trim (b.venueAddress.getD "")
      dateTime := b.dateTime.getD now
      duration := b.duration.getD 90
      turfType := b.turfType.getD "full"
      maxPlayers := b.maxPlayers.getD 14
      costPerPlayer := Num.fin (b.costPerPlayer.getD 0)
      totalCost := b.totalCost.getD 0
      status := b.status.getD MatchStatus.open
      isQuickMatch := false
      detailsCompletedAt := b.detailsCompletedAt
      actualEndTime := b.actualEndTime
      actualDuration := b.actualDuration
      players := b.players.map (fun r => r.cast now) }

/-- Change tracking of the new document: a path is modified when `matchData`
carries its key.  The quick branch of the route assigns all three keys. -/
def createTracking (b : CreateBody) : Modified :=
  if b.isQuickMatch = some true then
    { isNew := true, totalCost := true, maxPlayers := true, costPerPlayer := true }
  else
    { isNew := true, totalCost := b.totalCost.isSome, maxPlayers := b.maxPlayers.isSome
      costPerPlayer := b.costPerPlayer.isSome }

/-- Handler of `POST /`: the response and the match it stores.  `dateTime` is
`required` for a match that is not quick and `amountToPay` for every record, so
their absence fails validation. -/
def createMatch (b : CreateBody) (organizer : Nat) (matchId : String) (now : Int) :
    Response × Option Match :=
  if !b.valid then
    ({ status := 400, success := false, message := some "Validation failed" }, none)
  else if b.isQuickMatch != some true && b.dateTime.isNone then (validationErrorResponse, none)
  else if b.players.any (fun r => r.amountToPay.isNone) then (validationErrorResponse, none)
  else
    match save (createTracking b) (createDraft b organizer matchId now) with
    | none => (validationErrorResponse, none)
    | some saved =>
      ({ status := 201, success := true
         message := some (if b.isQuickMatch = some true then "Quick match created successfully"
           else "Match created successfully") },
       some saved)

/-- The keys of the body of `PUT /:matchId` that the embedding carries. -/
structure UpdateBody where
  totalCost : Option Int := none
  maxPlayers : Option Int := none
  costPerPlayer : Option Int := none
  status : Option MatchStatus := none
  deriving DecidableEq, Repr

/-- Handler of `PUT /:matchId`:
`Match.findByIdAndUpdate(req.match._id, req.body, { new: true, runValidators: true })`.
The update is applied by the store: the schema validators run on the keys of
the update only and the `pre('save')` hook does not run.  Inside an update
validator `this` is not the document; `thisIsQuick` is what
`this.isQuickMatch` evaluates to there. -/
def updateMatch (thisIsQuick : Bool) (m : Match) (b : UpdateBody) : Outcome :=
  let ok :=
    (match b.totalCost with
     | some t => decide (0 ≤ t)
     | none => true) &&
    (match b.maxPlayers with
     | some v => maxPlayersValid thisIsQuick v
     | none => true) &&
    (match b.costPerPlayer with
     | some c => decide (0 ≤ c)
     | none => true)
  if !ok then { response := validationErrorResponse, stored := m }
  else
    { response := { status := 200, success := true, message := some "Match updated successfully" }
      stored :=
        { m with
          totalCost := b.totalCost.getD m.totalCost
          maxPlayers := b.maxPlayers.getD m.maxPlayers
          costPerPlayer := (b.costPerPlayer.map Num.fin).getD m.costPerPlayer
          status := b.status.getD m.status } }

/-! ## The engine as a transition system -/

/-- One engine operation with its arguments. -/
inductive Op where
  | join (user : Nat) (now : Int)
  | leave (user : Nat) (now : Int)
  | payment (user : Nat) (status : PaymentStatus) (details : PaymentDetails) (now : Int)
  | start
  | complete (now : Int)
  | completeDetails (body : CompleteDetailsBody) (now : Int)
  | cancel
  deriving DecidableEq, Repr

/-- The stored match after a successful handler, `none` after a failed one. -/
def Outcome.result (o : Outcome) : Option Match :=
  if o.response.success then some o.stored else none

/-- Run an operation on a stored match: the match stored after a successful
run, `none` when the operation fails (the store keeps the match as it was). -/
def Op.run (op : Op) (m : Match) : Option Match :=
  match op with
  | Op.join user now => (joinMatch m user now).result
  | Op.leave user now => (leaveMatch m user now).result
  | Op.payment user status details now => paymentUpdate m user status details now
  | Op.start => (startMatch m).result
  | Op.complete now => (completeMatch m now).result
  | Op.completeDetails body now => (PlaySplit.completeDetails m body now).result
  | Op.cancel => (cancelMatch m).result

/-- The match the store holds after an operation, successful or not. -/
def Op.after (op : Op) (m : Match) : Match := (op.run m).getD m

/-- The match states the engine produces: what `POST /` stores, and what a
successful operation stores from such a state. -/
inductive Reachable : Match → Prop where
  | create (b : CreateBody) (organizer : Nat) (matchId : String) (now : Int) (m : Match) :
      (createMatch b organizer matchId now).2 = some m → Reachable m
  | step (op : Op) (m saved : Match) : Reachable m → op.run m = some saved → Reachable saved

/-! ## Authorization middleware (`middleware/auth.js`) -/

/-- User role, `enum: ['player', 'admin']`. -/
inductive Role where
  | player
  | admin
  deriving DecidableEq, Repr

/-- The authenticated user a request carries: `req.user._id` and `req.user.role`. -/
structure User where
  id : Nat
  role : Role := Role.player
  deriving DecidableEq, Repr

/-- Middleware `requireMatchOrganizer` on `req.match` and `req.user`: the
response it sends, or `none` when it calls `next()`.  `isOrganizer` is
`req.match.organizer.toString() === req.user._id.toString()`, which holds when
the path `organizer` holds the identifier of the user, and not when it holds a
populated user document. -/
def requireMatchOrganizer (reqMatch : Option Match) (reqUser : Option User) : Option Response :=
  match reqMatch with
  | none => some { status := 500, success := false, message := some "Match not loaded" }
  | some m =>
    match reqUser with
    | none => some { status := 401, success := false, message := some "Authentication required" }
    | some user =>
      let isOrganizer := !m.organizerPopulated && decide (m.organizer = user.id)
      let isAdmin := decide (user.role = Role.admin)
      if !isOrganizer && !isAdmin then
        some { status := 403, success := false
               message := some "Only match organizer or admin can perform this action" }
      else none

/-- A route whose chain is `authenticateToken`, `loadMatch`,
`requireMatchOrganizer` and then the handler, on a match that exists and a
request that is authenticated: the middleware sees the document `loadMatch`
built, and the handler runs only when the middleware calls `next()`. -/
def guarded (handler : Match → Outcome) (m : Match) (user : User) : Outcome :=
  match requireMatchOrganizer (some (loadMatch m)) (some user) with
  | some response => { response := response, stored := m }
  | none => handler m

/-- Route `POST /:matchId/start` behind its guard. -/
def startRoute (m : Match) (user : User) : Outcome := guarded startMatch m user

/-- Route `POST /:matchId/complete` behind its guard. -/
def completeRoute (now : Int) (m : Match) (user : User) : Outcome :=
  guarded (fun m => completeMatch m now) m user

/-- Route `POST /:matchId/complete-details` behind its guard. -/
def completeDetailsRoute (b : CompleteDetailsBody) (now : Int) (m : Match) (user : User) :
    Outcome :=
  guarded (fun m => completeDetails m b now) m user

/-- Route `DELETE /:matchId` (cancel) behind its guard. -/
def cancelRoute (m : Match) (user : User) : Outcome := guarded cancelMatch m user

/-! ## Rate limiting (`middleware/auth.js`) -/

/-- One call of the middleware `userRateLimit(maxRequests, windowMs)` returns:
`requestCounts` is the map of the closure (an absent key holds the empty
array), `userId` the key `req.user?.firebaseUid || req.ip`, `now` is
`Date.now()`.  The result is whether `next()` was called (otherwise the answer
is 429) and the map afterwards. -/
def userRateLimit (maxRequests : Nat) (windowMs : Int) (requestCounts : String → List Int)
    (userId : String) (now : Int) : Bool × (String → List Int) :=
  let windowStart := now - windowMs
  let requests := requestCounts userId
  let validRequests := requests.filter (fun timestamp => decide (windowStart < timestamp))
  if maxRequests ≤ validRequests.length then (false, requestCounts)
  else (true, fun key => if key = userId then validRequests ++ [now] else requestCounts key)

/-- Serve a sequence of requests `(key, timestamp)` through one limiter; the
result lists the requests that were let through, in order. -/
def served (maxRequests : Nat) (windowMs : Int) :
    (String → List Int) → List (String × Int) → List (String × Int)
  | _, [] => []
  | requestCounts, (key, now) :: rest =>
    if (userRateLimit maxRequests windowMs requestCounts key now).1 then
      (key, now) :: served maxRequests windowMs
        (userRateLimit maxRequests windowMs requestCounts key now).2 rest
    else
      served maxRequests windowMs (userRateLimit maxRequests windowMs requestCounts key now).2 rest

/-- Number of requests of `key` in `accepted` with timestamp in `(t - windowMs, t]`. -/
def countInWindow (accepted : List (String × Int)) (key : String) (windowMs t : Int) : Nat :=
  (accepted.filter
    (fun r => decide (r.1 = key) && decide (t - windowMs < r.2) && decide (r.2 ≤ t))).length

/-! ## Error handler (`middleware/errorHandler.js`) -/

/-- The property `err.code`: a number (database driver) or a string
(authentication provider, upload and network errors). -/
inductive ErrCode where
  | num (n : Int)
  | str (s : String)
  deriving DecidableEq, Repr

/-- The property `err.error` of a payment gateway error. -/
structure GatewayError where
  code : Option String := none
  description : Option String := none
  deriving DecidableEq, Repr

/-- The properties of the error object that `errorHandler` reads.  `keyValue`
holds the keys of `err.keyValue`, `errors` the key and the message of every
entry of `err.errors`. -/
structure Err where
  name : String := "Error"
  message : String := ""
  code : Option ErrCode := none
  keyValue : Option (List String) := none
  errors : Option (List (String × String)) := none
  error : Option GatewayError := none
  statusCode : Option Nat := none
  deriving DecidableEq, Repr

/-- The local object `error` of the handler once a branch has replaced it:
`{ name, message, statusCode }`; before that `name` is absent. -/
structure ErrorFields where
  name : Option String
  message : String
  statusCode : Option Nat
  deriving DecidableEq, Repr

/-- What `errorHandler` sends: `res.status(status).json({ success: false, message,
error: { name, ... }, validationErrors })`; `details` tells whether the stack
and the error are attached (development mode). -/
structure ErrorResponse where
  status : Nat
  success : Bool := false
  message : String
  errorName : String
  details : Bool := false
  validationErrors : Option (List (String × String)) := none
  deriving DecidableEq, Repr

/-- `s.startsWith(pre)` on strings. -/
def startsWith (s pre : String) : Bool := pre.toList.isPrefixOf s.toList

/-- `a || b` on an optional status code: 0 and absent are falsy. -/
def statusOr (a : Option Nat) (b : Nat) : Nat :=
  match a with
  | some v => if v != 0 then v else b
  | none => b

/-- Function `errorHandler(err, req, res, next)`.  The result is the response it
sends, or the message of the `TypeError` it throws before sending one.
`development` is `process.env.NODE_ENV === 'development'`. -/
def errorHandler (development : Bool) (err : Err) : Except String ErrorResponse := do
  let error0 : ErrorFields := { name := none, message := err.message, statusCode := err.statusCode }
  -- Mongoose bad ObjectId
  let error1 : ErrorFields :=
    if err.name = "CastError" then
      { name := some "ValidationError", message := "Invalid resource ID", statusCode := some 400 }
    else error0
  -- Mongoose duplicate key
  let error2 : ErrorFields ←
    if err.code = some (ErrCode.num 11000) then
      match err.keyValue with
      | none => throw "TypeError: Cannot convert undefined or null to object"
      | some keys =>
        let field := keys.head?.getD "undefined"
        let message :=
          if field = "email" then "An account with this email already exists"
          else if field = "matchId" then "Match ID already exists"
          else if field = "firebaseUid" then "User already registered"
          else field ++ " already exists"
        pure { name := some "DuplicateError", message := message, statusCode := some 400 }
    else pure error1
  -- Mongoose validation error
  let error3 : ErrorFields ←
    if err.name = "ValidationError" then
      match err.errors with
      | none => throw "TypeError: Cannot convert undefined or null to object"
      | some entries =>
        pure { name := some "ValidationError"
               message := String.intercalate ", " (entries.map Prod.snd)
               statusCode := some 400 }
    else pure error2
  -- Firebase Authentication errors: `err.code && err.code.startsWith('auth/')`
  let error4 : ErrorFields ←
    match err.code with
    | none => pure error3
    | some (ErrCode.num n) =>
      if n = 0 then pure error3
      else throw "TypeError: err.code.startsWith is not a function"
    | some (ErrCode.str c) =>
      if c != "" && startsWith c "auth/" then
        if c = "auth/id-token-expired" then
          pure { name := some "AuthenticationError"
                 message := "Token expired, please login again", statusCode := some 401 }
        else if c = "auth/invalid-id-token" then
          pure { name := some "AuthenticationError", message := "Invalid token"
                 statusCode := some 401 }
        else if c = "auth/user-not-found" then
          pure { name := some "AuthenticationError", message := "User not found"
                 statusCode := some 404 }
        else if c = "auth/user-disabled" then
          pure { name := some "AuthenticationError", message := "User account has been disabled"
                 statusCode := some 403 }
        else
          pure { name := some "AuthenticationError", message := "Authentication failed"
                 statusCode := some 401 }
      else pure error3
  -- Razorpay errors: `err.error && err.error.code`
  let error5 : ErrorFields :=
    match err.error with
    | none => error4
    | some g =>
      if strTruthy g.code then
        if g.code = some "BAD_REQUEST_ERROR" then
          { name := some "PaymentError", message := "Invalid payment request"
            statusCode := some 400 }
        else if g.code = some "GATEWAY_ERROR" then
          { name := some "PaymentError", message := "Payment gateway error"
            statusCode := some 503 }
        else if g.code = some "SERVER_ERROR" then
          { name := some "PaymentError", message := "Payment server error"
            statusCode := some 500 }
        else
          { name := some "PaymentError", message := strOrElse g.description "Payment error"
            statusCode := some 400 }
      else error4
  -- JWT errors
  let error6 : ErrorFields :=
    if err.name = "JsonWebTokenError" then
      { name := some "AuthenticationError", message := "Invalid token", statusCode := some 401 }
    else error5
  let error7 : ErrorFields :=
    if err.name = "TokenExpiredError" then
      { name := some "AuthenticationError", message := "Token expired", statusCode := some 401 }
    else error6
  -- Custom application errors
  let error8 : ErrorFields :=
    if err.name = "MatchFullError" then
      { name := some "BusinessLogicError", message := "Match is full, cannot join"
        statusCode := some 409 }
    else error7
  let error9 : ErrorFields :=
    if err.name = "PaymentRequiredError" then
      { name := some "PaymentError", message := "Payment required to join match"
        statusCode := some 402 }
    else error8
  -- File upload errors
  let error10 : ErrorFields :=
    if err.code = some (ErrCode.str "LIMIT_FILE_SIZE") then
      { name := some "ValidationError", message := "File too large", statusCode := some 413 }
    else error9
  let error11 : ErrorFields :=
    if err.code = some (ErrCode.str "LIMIT_UNEXPECTED_FILE") then
      { name := some "ValidationError", message := "Unexpected file upload"
        statusCode := some 400 }
    else error10
  -- Network/timeout errors
  let error12 : ErrorFields :=
    if err.code = some (ErrCode.str "ECONNREFUSED") then
      { name := some "ServiceError", message := "Service temporarily unavailable"
        statusCode := some 503 }
    else error11
  let error13 : ErrorFields :=
    if err.code = some (ErrCode.str "ETIMEDOUT") then
      { name := some "ServiceError", message := "Request timeout", statusCode := some 408 }
    else error12
  -- Default error response
  let statusCode := statusOr error13.statusCode (statusOr err.statusCode 500)
  let message := if error13.message != "" then error13.message else "Internal Server Error"
  pure
    { status := statusCode
      success := false
      message := message
      errorName := strOrElse error13.name (strOrElse (some err.name) "UnknownError")
      details := development
      validationErrors := if err.name = "ValidationError" then err.errors else none }

/-! ## Payment records (`models/Payment.js`, `routes/payments.js`) -/

/-- The values of the `status` path of `paymentSchema`,
`enum: ['created', 'attempted', 'paid', 'failed', 'cancelled', 'refunded']`. -/
def paymentStatuses : List String :=
  ["created", "attempted", "paid", "failed", "cancelled", "refunded"]

/-- The values of the `method` path of `paymentSchema`. -/
def paymentRecordMethods : List String :=
  ["upi", "card", "netbanking", "wallet", "cash", "bank_transfer"]

/-- The paths of a Payment document that the methods and handlers assign. -/
structure Payment where
  paymentId : String
  amount : Int
  method : String
  status : String := "created"
  razorpayPaymentId : Option String := none
  failureReason : Option String := none
  verified : Bool := false
  verifiedAt : Option Int := none
  signature : Option String := none
  timeline : List (String × Int) := []
  deriving DecidableEq, Repr

/-- Validators of `paymentSchema` on the embedded paths: `paymentId` required,
`amount` with `min: 0`, the enums of `method` and `status`. -/
def Payment.schemaValid (p : Payment) : Bool :=
  p.paymentId != "" && decide (0 ≤ p.amount) &&
  paymentRecordMethods.contains p.method && paymentStatuses.contains p.status

/-- Call `save()` on a loaded payment `loaded` mutated into `p`: validation, then
the hook `paymentSchema.pre('save')`, which appends to the timeline when
`status` is modified. -/
def Payment.save (loaded p : Payment) (now : Int) : Option Payment :=
  if p.schemaValid then
    some (if p.status != loaded.status then { p with timeline := p.timeline ++ [(p.status, now)] }
      else p)
  else none

/-- The assignments of method `markAsPaid(paymentDetails)` before its `save()`. -/
def Payment.markAsPaidDraft (p : Payment) (razorpayPaymentId signature : Option String)
    (now : Int) : Payment :=
  { p with
    status := "paid"
    verified := true
    verifiedAt := some now
    signature := signature
    razorpayPaymentId := if strTruthy razorpayPaymentId then razorpayPaymentId
      else p.razorpayPaymentId }

/-- Method `markAsPaid(paymentDetails)`. -/
def Payment.markAsPaid (p : Payment) (razorpayPaymentId signature : Option String)
    (now : Int) : Option Payment :=
  Payment.save p (p.markAsPaidDraft razorpayPaymentId signature now) now

/-- The assignments of method `markAsFailed(reason)` before its `save()`. -/
def Payment.markAsFailedDraft (p : Payment) (reason : Option String) : Payment :=
  { p with status := "failed", failureReason := reason }

/-- Method `markAsFailed(reason)`. -/
def Payment.markAsFailed (p : Payment) (reason : Option String) (now : Int) : Option Payment :=
  Payment.save p (p.markAsFailedDraft reason) now

/-- The assignments of `mark-cash-payment` on an existing payment record:
`payment.status = 'paid'; payment.method = 'cash'`. -/
def markCashPaymentDraft (p : Payment) : Payment :=
  { p with status := "paid", method := "cash" }

/-- The assignment of `handlePaymentCapturedWebhook`: it calls `markAsPaid`. -/
def handlePaymentCapturedDraft (p : Payment) (razorpayPaymentId : Option String) (now : Int) :
    Payment :=
  p.markAsPaidDraft razorpayPaymentId none now

/-- The assignment of `handlePaymentFailedWebhook`: `payment.status = 'failed'`
(the `metadata` keys it sets are not paths of the schema). -/
def handlePaymentFailedDraft (p : Payment) : Payment :=
  { p with status := "failed" }

/-- The assignment of `handleRefundWebhook`, which serves the events
`refund.created` and `refund.processed`:
`payment.status = eventData.event === 'refund.processed' ? 'refunded' : 'refund_pending'`. -/
def handleRefundDraft (event : String) (p : Payment) : Payment :=
  { p with status := if event = "refund.processed" then "refunded" else "refund_pending" }

/-- Function `handleRefundWebhook` on the payment it found: the assignment, then
`await payment.save()`. -/
def handleRefundWebhook (event : String) (p : Payment) (now : Int) : Option Payment :=
  Payment.save p (handleRefundDraft event p) now

/-! ## Example states -/

/-- A joined record with nothing paid, owing 100. -/
def joinedRecord (u : Nat) : Player :=
  { user := u, joinedAt := 0, amountToPay := Num.fin 100 }

/-- A regular match, open, for ten players at a total cost of 1000, nobody joined. -/
def regularOpen : Match :=
  { matchId := "AB12CD34", title := "Sunday game", organizer := 1, venueName := "Turf 9"
    venueAddress := "Main road", dateTime := 1000, maxPlayers := 10
    costPerPlayer := Num.fin 100, totalCost := 1000 }

/-- The regular match with its ten places taken. -/
def fullTen : Match :=
  { regularOpen with
    players := [joinedRecord 1, joinedRecord 2, joinedRecord 3, joinedRecord 4, joinedRecord 5,
      joinedRecord 6, joinedRecord 7, joinedRecord 8, joinedRecord 9, joinedRecord 10] }

/-- A quick match that has been played and waits for its details, with a
roster of `users`. -/
def quickPending (users : List Nat) : Match :=
  { matchId := "QM12CD34", title := "Quick Match", organizer := 1, venueName := "TBD"
    venueAddress := "To be determined", dateTime := 0, maxPlayers := 100
    status := MatchStatus.pendingDetails, isQuickMatch := true
    actualEndTime := some 3600000, actualDuration := some 60
    players := users.map (fun u => { user := u, joinedAt := 0, amountToPay := Num.fin 0 }) }

/-- Final details of a quick match: total cost 600, played by six. -/
def detailsForSix : CompleteDetailsBody :=
  { title := "Sunday game", venueName := "Turf 9", venueAddress := "Main road"
    totalCost := some 600, actualPlayers := some 6 }

/-- An open regular match for six players with six joined players and an
opted-out record of user 7. -/
def fullSixWithOptedOut : Match :=
  { regularOpen with
    maxPlayers := 6
    players := [joinedRecord 1, joinedRecord 2, joinedRecord 3, joinedRecord 4, joinedRecord 5,
      joinedRecord 6, { joinedRecord 7 with status := ParticipationStatus.optedOut }] }

/-- A regular match that has been completed. -/
def regularCompleted : Match := { regularOpen with status := MatchStatus.completed }

/-- Final details of a quick match: total cost 500, no player count supplied. -/
def detailsFiveHundred : CompleteDetailsBody :=
  { title := "Sunday game", venueName := "Turf 9", venueAddress := "Main road"
    totalCost := some 500 }

/-- The body of the request that creates the regular match `regularOpen`. -/
def regularBody : CreateBody :=
  { title := some "Sunday game", venueName := some "Turf 9", venueAddress := some "Main road"
    dateTime := some 1000, duration := some 90, maxPlayers := some 10, totalCost := some 1000
    turfType := some "full" }

/-- A joined record that has been paid in full, 100 through the gateway. -/
def paidRecord (u : Nat) : Player :=
  { joinedRecord u with
    paymentStatus := PaymentStatus.paid, paidAmount := Num.fin 100
    paymentMethod := some "upi", paymentId := some "pay_1", paidAt := some 3 }

/-- The open regular match with three records; the second player has paid. -/
def withPaid : Match :=
  { regularOpen with players := [joinedRecord 1, paidRecord 2, joinedRecord 3] }

/-- Payment details of a cash payment of 100. -/
def cashHundred : PaymentDetails :=
  { amount := some 100, method := some "cash", paymentId := some "cash_1" }

/-- Payment details of a cash payment with the amount 0. -/
def cashZero : PaymentDetails :=
  { amount := some 0, method := some "cash", paymentId := some "cash_1" }

/-- The body of a request that creates a quick match with nothing but the flag,
asking for status `draft`. -/
def quickBody : CreateBody := { isQuickMatch := some true, status := some MatchStatus.draft }

/-- The open regular match after its paid second player has left. -/
def withRemoved : Match :=
  { regularOpen with
    players := [joinedRecord 1,
      { paidRecord 2 with status := ParticipationStatus.removed, leftEarly := true
                          leftAt := some 9 }] }

/-- The open regular match with a joined record and an opted-out record of
user 7. -/
def withOptedOut : Match :=
  { regularOpen with
    players := [joinedRecord 1, { joinedRecord 7 with status := ParticipationStatus.optedOut }] }

/-- The regular match for six players at a total cost of `10 ^ 17`. -/
def costlySix : Match := { regularOpen with maxPlayers := 6, totalCost := 10 ^ 17 }

/-- The body of a request that creates a regular match with the flag
`isQuickMatch: false`, no cost and a roster of one record owing 3. -/
def rosterBody : CreateBody :=
  { isQuickMatch := some false, title := some "Sunday game", venueName := some "Turf 9"
    venueAddress := some "Main road", dateTime := some 1000
    players := [{ user := 2, amountToPay := some 3 }] }

/-- The body of a request that creates the regular match for ten players at a
total cost of 1000 with a roster of one record owing 3. -/
def rosterBodyWithCost : CreateBody :=
  { regularBody with players := [{ user := 2, amountToPay := some 3 }] }

/-- A quick match that waits for its details at a cost of 50 per player: five
joined records, the first of them paid, and an opted-out record that owes 50. -/
def quickWithRoster : Match :=
  { quickPending [] with
    costPerPlayer := Num.fin 50
    players :=
      [{ user := 1, joinedAt := 0, amountToPay := Num.fin 50
         paymentStatus := PaymentStatus.paid, paidAmount := Num.fin 50 },
       { user := 2, joinedAt := 0, amountToPay := Num.fin 50 },
       { user := 3, joinedAt := 0, amountToPay := Num.fin 50 },
       { user := 4, joinedAt := 0, amountToPay := Num.fin 50 },
       { user := 5, joinedAt := 0, amountToPay := Num.fin 50 },
       { user := 6, joinedAt := 0, amountToPay := Num.fin 50
         status := ParticipationStatus.optedOut }] }

/-- Six requests of one address to a limiter, one per second. -/
def sixRequests : List (String × Int) :=
  [("10.0.0.1", 0), ("10.0.0.1", 1000), ("10.0.0.1", 2000), ("10.0.0.1", 3000),
   ("10.0.0.1", 4000), ("10.0.0.1", 5000)]

/-- A duplicate-key error of the database driver on the `email` index. -/
def duplicateEmail : Err :=
  { name := "MongoServerError", message := "E11000 duplicate key error collection: users"
    code := some (ErrCode.num 11000), keyValue := some ["email"] }

/-! ## Predicates of the claims -/

/-- Position of a status in the order
`draft < open < started < pending-details < completed`; `cancelled` stands
outside the order and is given the last position. -/
def MatchStatus.rank : MatchStatus → Nat
  | MatchStatus.draft => 0
  | MatchStatus.open => 1
  | MatchStatus.started => 2
  | MatchStatus.pendingDetails => 3
  | MatchStatus.completed => 4
  | MatchStatus.cancelled => 5

/-- The invariant the states of the engine keep: a quick match is never open. -/
def EngineInv (m : Match) : Prop :=
  m.isQuickMatch = true → m.status ≠ MatchStatus.open

/-- Every record whose payment is pending owes the cost per player of the
match. -/
def PendingInSync (m : Match) : Prop :=
  ∀ p ∈ m.players, p.paymentStatus = PaymentStatus.pending → p.amountToPay = m.costPerPlayer

/-- A record without its `paidAt` stamp. -/
def Player.withoutPaidAt (p : Player) : Player := { p with paidAt := none }

/-- The sum `totalCollected` computes, on a roster. -/
def collected (ps : List Player) : Num :=
  ps.foldl
    (fun sum p => if p.paymentStatus = PaymentStatus.paid then Num.add sum p.paidAmount else sum)
    (Num.fin 0)

/-- The timestamps of the requests of `key` in `accepted`, in order. -/
def timestampsOf (accepted : List (String × Int)) (key : String) : List Int :=
  (accepted.filter (fun r => decide (r.1 = key))).map Prod.snd

/-- The timestamps of `l` later than `x`. -/
def laterThan (x : Int) (l : List Int) : List Int := l.filter (fun ts => decide (x < ts))

/-- The invariant of the limiter after the requests up to time `last`. -/
def RateInv (maxRequests : Nat) (windowMs : Int) (requestCounts : String → List Int)
    (accepted : List (String × Int)) (last : Int) : Prop :=
  (∀ r ∈ accepted, r.2 ≤ last) ∧
  (∀ (key : String) (x : Int), last - windowMs ≤ x →
    laterThan x (timestampsOf accepted key) = laterThan x (requestCounts key)) ∧
  (∀ (key : String) (t : Int), countInWindow accepted key windowMs t ≤ maxRequests)

/-! ## Auxiliary facts -/

theorem preSave_untracked (m : Match) : preSave {} m = m := by
  cases m; simp [preSave]

theorem save_untracked (m saved : Match) (h : save {} m = some saved) : saved = m := by
  unfold save at h
  split at h
  · rw [preSave_untracked] at h; exact (Option.some.inj h).symm
  · exact absurd h (by simp)

theorem save_eq_some (tr : Modified) (m saved : Match) (h : save tr m = some saved) :
    m.schemaValid = true ∧ saved = preSave tr m := by
  unfold save at h
  split at h
  · exact ⟨by assumption, (Option.some.inj h).symm⟩
  · exact absurd h (by simp)

theorem joinedPlayers_length (m : Match) : m.joinedPlayers.length = joinedCount m.players := rfl

theorem joinedCount_nil : joinedCount [] = 0 := rfl

theorem joinedCount_cons (x : Player) (xs : List Player) :
    joinedCount (x :: xs) =
      (if x.status = ParticipationStatus.joined then 1 else 0) + joinedCount xs := by
  unfold joinedCount
  by_cases h : x.status = ParticipationStatus.joined
  · simp [List.filter_cons, h]; omega
  · simp [List.filter_cons, h]

theorem joinedCount_map (f : Player → Player) (hf : ∀ p, (f p).status = p.status)
    (ps : List Player) : joinedCount (ps.map f) = joinedCount ps := by
  induction ps with
  | nil => rfl
  | cons x xs ih => simp only [List.map_cons, joinedCount_cons, hf x, ih]

theorem joinedCount_modifyFirst_eq (q : Player → Bool) (f : Player → Player)
    (hf : ∀ p, (f p).status = p.status) (ps : List Player) :
    joinedCount (modifyFirst q f ps) = joinedCount ps := by
  induction ps with
  | nil => rfl
  | cons x xs ih =>
    simp only [modifyFirst]
    split
    · simp only [joinedCount_cons, hf x]
    · simp only [joinedCount_cons, ih]

theorem joinedCount_append (ps qs : List Player) :
    joinedCount (ps ++ qs) = joinedCount ps + joinedCount qs := by
  simp [joinedCount]


theorem reject_result (m : Match) (msg : String) : (reject m msg).result = none := rfl

theorem joinedCount_loadMatch (m : Match) :
    joinedCount (loadMatch m).players = joinedCount m.players :=
  joinedCount_map (fun p => { p with populated := true }) (fun _ => rfl) m.players

theorem find?_isUser_loadMatch (m : Match) (user : Nat) :
    (loadMatch m).players.find? (isUser user) = none := by
  rw [List.find?_eq_none]
  intro p hp
  simp only [loadMatch, List.mem_map] at hp
  obtain ⟨q, _, rfl⟩ := hp
  simp [isUser]

/-- On the document `loadMatch` builds, `addPlayer` finds no record of the user,
whoever the user is: it tests the capacity and appends a record. -/
theorem addPlayer_loadMatch (m : Match) (user : Nat) (now : Int) :
    (loadMatch m).addPlayer user none now =
      if m.maxPlayers ≤ (joinedCount m.players : Int) then Except.error "Match is full"
      else Except.ok
        { loadMatch m with
          players := (loadMatch m).players ++ [newPlayer user m.costPerPlayer now] } := by
  unfold Match.addPlayer
  rw [find?_isUser_loadMatch]
  simp only [joinedPlayers_length, joinedCount_loadMatch]
  rfl

/-- On the document `loadMatch` builds, `removePlayer` finds no record of the
user, whoever the user is. -/
theorem removePlayer_loadMatch (m : Match) (user : Nat) (now : Int) :
    (loadMatch m).removePlayer user now = Except.error "Player not found in match" := by
  unfold Match.removePlayer
  rw [find?_isUser_loadMatch]

theorem leaveMatch_eq (m : Match) (user : Nat) (now : Int) :
    leaveMatch m user now =
      reject m (if m.status = MatchStatus.completed ∨ m.status = MatchStatus.cancelled
        then "Cannot leave a completed or cancelled match" else "Player not found in match") := by
  unfold leaveMatch
  rw [removePlayer_loadMatch]
  split <;> rfl

theorem leaveMatch_result (m : Match) (user : Nat) (now : Int) :
    (leaveMatch m user now).result = none := by
  rw [leaveMatch_eq]; rfl

theorem asStored_appended (m : Match) (r : Player) (hr : r.populated = false) :
    asStored { loadMatch m with players := (loadMatch m).players ++ [r] } =
      { asStored m with players := (asStored m).players ++ [r] } := by
  have hr2 : ({ r with populated := false } : Player) = r := by
    cases r; simp_all
  simp only [asStored, loadMatch, List.map_append, List.map_map, List.map_cons, List.map_nil, hr2]
  rfl

theorem joinMatch_result (m saved : Match) (user : Nat) (now : Int)
    (h : (joinMatch m user now).result = some saved) :
    m.status = MatchStatus.open ∧ (joinedCount m.players : Int) < m.maxPlayers ∧
      saved =
        { asStored m with
          players := (asStored m).players ++ [newPlayer user m.costPerPlayer now] } := by
  unfold joinMatch at h
  split at h
  · simp [reject_result] at h
  · rename_i hst
    refine ⟨not_not.mp hst, ?_⟩
    rw [addPlayer_loadMatch] at h
    by_cases hfull : m.maxPlayers ≤ (joinedCount m.players : Int)
    · rw [if_pos hfull] at h
      simp [reject_result] at h
    · rw [if_neg hfull] at h
      refine ⟨by omega, ?_⟩
      simp only at h
      split at h
      · simp [Outcome.result] at h
      · rename_i s hs
        have h1 := save_eq_some _ _ _ hs
        rw [preSave_untracked] at h1
        simp [Outcome.result] at h
        subst h
        rw [h1.2]
        exact asStored_appended m _ rfl

theorem paymentUpdate_result (m saved : Match) (user : Nat) (status : PaymentStatus)
    (details : PaymentDetails) (now : Int)
    (h : paymentUpdate m user status details now = some saved) :
    m.updatePaymentStatus user status details now = Except.ok saved ∧
      saved.schemaValid = true := by
  unfold paymentUpdate at h
  split at h
  · simp at h
  · rename_i m1 hupd
    have h1 := save_eq_some _ _ _ h
    rw [preSave_untracked] at h1
    rw [h1.2]
    exact ⟨hupd, h1.1⟩

theorem startMatch_result (m saved : Match) (h : (startMatch m).result = some saved) :
    m.status = MatchStatus.open ∧ saved = { m with status := MatchStatus.started } := by
  unfold startMatch at h
  split at h
  · simp [reject_result] at h
  · rename_i hst
    refine ⟨not_not.mp hst, ?_⟩
    split at h
    · simp [Outcome.result, validationErrorResponse] at h
    · rename_i s hs
      have h1 := save_eq_some _ _ _ hs
      rw [preSave_untracked] at h1
      simp [Outcome.result] at h
      subst h
      exact h1.2

theorem cancelMatch_result (m saved : Match) (h : (cancelMatch m).result = some saved) :
    saved = { m with status := MatchStatus.cancelled } := by
  unfold cancelMatch at h
  split at h
  · simp [Outcome.result, validationErrorResponse] at h
  · rename_i s hs
    have h1 := save_eq_some _ _ _ hs
    rw [preSave_untracked] at h1
    simp [Outcome.result] at h
    subst h
    exact h1.2

theorem completeMatch_result (m saved : Match) (now : Int)
    (h : (completeMatch m now).result = some saved) :
    m.status = MatchStatus.started ∧
      saved = (if m.isQuickMatch then
        { m with
          status := MatchStatus.pendingDetails
          actualEndTime := some now
          actualDuration := some (roundMinutes (now - m.dateTime)) }
      else { m with status := MatchStatus.completed }) := by
  unfold completeMatch at h
  split at h
  · simp [reject_result] at h
  · rename_i hst
    refine ⟨not_not.mp hst, ?_⟩
    simp only at h
    split at h
    · simp [Outcome.result, validationErrorResponse] at h
    · rename_i s hs
      have h1 := save_eq_some _ _ _ hs
      rw [preSave_untracked] at h1
      simp [Outcome.result] at h
      subst h
      exact h1.2

theorem completeDetails_result (m saved : Match) (b : CompleteDetailsBody) (now : Int)
    (h : (completeDetails m b now).result = some saved) :
    b.valid = true ∧ m.isQuickMatch = true ∧ m.status = MatchStatus.pendingDetails ∧
      (completeDetailsDraft m b now).schemaValid = true ∧
      saved = preSave
        { totalCost := (completeDetailsDraft m b now).totalCost != m.totalCost
          maxPlayers := (completeDetailsDraft m b now).maxPlayers != m.maxPlayers
          costPerPlayer := (completeDetailsDraft m b now).costPerPlayer != m.costPerPlayer }
        (completeDetailsDraft m b now) := by
  unfold completeDetails at h
  split at h
  · simp [reject_result] at h
  · rename_i hv
    split at h
    · simp [reject_result] at h
    · rename_i hg
      simp only at h
      split at h
      · simp [Outcome.result, validationErrorResponse] at h
      · rename_i s hs
        have h1 := save_eq_some _ _ _ hs
        simp [Outcome.result] at h
        subst h
        simp at hv hg
        exact ⟨hv, hg.1, hg.2, h1.1, h1.2⟩


theorem syncPending_status (c : Num) (p : Player) : (syncPending c p).status = p.status := by
  unfold syncPending; split <;> rfl

theorem resetJoined_status (c : Num) (p : Player) : (resetJoined c p).status = p.status := by
  unfold resetJoined; split <;> rfl

theorem preSave_maxPlayers (tr : Modified) (m : Match) :
    (preSave tr m).maxPlayers = m.maxPlayers := rfl

theorem preSave_status (tr : Modified) (m : Match) : (preSave tr m).status = m.status := rfl

theorem preSave_joinedCount (tr : Modified) (m : Match) :
    joinedCount (preSave tr m).players = joinedCount m.players := by
  have key : ∀ (b : Bool) (c : Num),
      joinedCount (if b = true then m.players.map (syncPending c) else m.players) =
        joinedCount m.players := by
    intro b c
    cases b
    · rfl
    · exact joinedCount_map _ (syncPending_status c) _
  exact key _ _

theorem applyPayment_status (status : PaymentStatus) (d : PaymentDetails) (now : Int)
    (p : Player) : (applyPayment status d now p).status = p.status := by
  unfold applyPayment; split <;> rfl

theorem updatePaymentStatus_capacity (m saved : Match) (user : Nat) (status : PaymentStatus)
    (d : PaymentDetails) (now : Int)
    (hcap : (joinedCount m.players : Int) ≤ m.maxPlayers)
    (h : m.updatePaymentStatus user status d now = Except.ok saved) :
    (joinedCount saved.players : Int) ≤ saved.maxPlayers := by
  unfold Match.updatePaymentStatus at h
  split at h
  · cases h
  · cases h
    simp only
    rw [joinedCount_modifyFirst_eq _ _ (applyPayment_status status d now)]
    exact hcap

theorem roundHalfEven_bounds (a b : Nat) (hb : 0 < b) :
    2 * a ≤ 2 * (b * roundHalfEven a b) + b ∧ 2 * (b * roundHalfEven a b) ≤ 2 * a + b := by
  have h1 := Nat.div_add_mod a b
  have h2 := Nat.mod_lt a hb
  unfold roundHalfEven
  simp only
  generalize a / b = q at *
  generalize a % b = r at *
  subst h1
  split
  · constructor <;> nlinarith
  · split
    · constructor <;> nlinarith
    · split
      · constructor <;> nlinarith
      · constructor <;> nlinarith


theorem log2Aux_lt (fuel : Nat) : ∀ n : Nat, n ≤ fuel → n < 2 ^ (log2Aux fuel n + 1) := by
  induction fuel with
  | zero => intro n hn; simp [log2Aux]; omega
  | succ fuel ih =>
    intro n hn
    unfold log2Aux
    split
    · simpa using (by omega : n < 2)
    · have h := ih (n / 2) (by omega)
      rw [pow_succ]
      omega

theorem log2Aux_le (fuel : Nat) : ∀ n : Nat, n ≤ fuel → 0 < n → 2 ^ log2Aux fuel n ≤ n := by
  induction fuel with
  | zero => intro n hn h0; omega
  | succ fuel ih =>
    intro n hn h0
    unfold log2Aux
    split
    · simpa using h0
    · have h := ih (n / 2) (by omega) (by omega)
      rw [pow_succ]
      omega

theorem lt_two_pow_log2 (n : Nat) : n < 2 ^ (log2 n + 1) := log2Aux_lt n n (le_refl n)

theorem log2_lt_of_lt (n k : Nat) (h0 : 0 < n) (h : n < 2 ^ k) : log2 n < k := by
  have h1 := log2Aux_le n n (le_refl n) h0
  exact (Nat.pow_lt_pow_iff_right (by norm_num : 1 < 2)).mp (lt_of_le_of_lt h1 h)

theorem quotientExponent_le (a b : Nat) (ha0 : 0 < a) (ha : a < 2 ^ 53) (hb0 : 0 < b)
    (hb : b < 2 ^ 53) : quotientExponent a b ≤ -(log2 b : Int) := by
  have h1 := log2_lt_of_lt a 53 ha0 ha
  have h2 := log2_lt_of_lt b 53 hb0 hb
  unfold quotientExponent
  simp only
  split <;> omega


/-- The rounded mantissa lies strictly between the multiples of the scale that
enclose the exact quotient, when the scale is more than half the divisor. -/
theorem roundHalfEven_between (b k r P : Nat) (hr0 : 0 < r) (hr : r < b) (hP : b < 2 * P) :
    k * P < roundHalfEven ((b * k + r) * P) b ∧
      roundHalfEven ((b * k + r) * P) b < (k + 1) * P := by
  have hb0 : 0 < b := by omega
  obtain ⟨h1, h2⟩ := roundHalfEven_bounds ((b * k + r) * P) b hb0
  generalize roundHalfEven ((b * k + r) * P) b = m at h1 h2
  constructor
  · by_contra hle
    have hle2 : m ≤ k * P := Nat.le_of_not_lt hle
    have h3 : b * m ≤ b * (k * P) := Nat.mul_le_mul_left b hle2
    have h4 : P ≤ r * P := Nat.le_mul_of_pos_left P hr0
    nlinarith
  · by_contra hge
    have hge2 : (k + 1) * P ≤ m := Nat.le_of_not_lt hge
    have h3 : b * ((k + 1) * P) ≤ b * m := Nat.mul_le_mul_left b hge2
    have h4 : P ≤ (b - r) * P := Nat.le_mul_of_pos_left P (by omega)
    have h5 : (b - r) * P + r * P = b * P := by
      rw [← Nat.add_mul]; congr 1; omega
    nlinarith

theorem roundHalfEven_exact (b k P : Nat) (hb0 : 0 < b) :
    roundHalfEven (b * k * P) b = k * P := by
  unfold roundHalfEven
  have h1 : b * k * P % b = 0 := by rw [Nat.mul_assoc]; exact Nat.mul_mod_right b _
  have h2 : b * k * P / b = k * P := by
    rw [Nat.mul_assoc]; exact Nat.mul_div_cancel_left _ hb0
  simp only [h1, h2]
  simp [hb0]

/-- In the range of the safe integers the double quotient has the ceiling and
the integer part of the exact quotient. -/
theorem divDouble_safe (a b : Nat) (ha0 : 0 < a) (ha : a < 2 ^ 53) (hb0 : 0 < b)
    (hb : b < 2 ^ 53) :
    ((divDouble a b).1 + (divDouble a b).2 - 1) / (divDouble a b).2 = (a + b - 1) / b ∧
    (divDouble a b).1 / (divDouble a b).2 = a / b := by
  have he := quotientExponent_le a b ha0 ha hb0 hb
  have hlog := lt_two_pow_log2 b
  unfold divDouble
  simp only
  generalize quotientExponent a b = e at he
  have hdown : e.toNat = 0 := by omega
  obtain ⟨s, hs⟩ : ∃ s : Nat, (-e).toNat = s ∧ log2 b ≤ s := ⟨(-e).toNat, rfl, by omega⟩
  rw [hdown, hs.1]
  simp only [pow_zero, Nat.mul_one]
  have hP : b < 2 * 2 ^ s := by
    have : 2 ^ (log2 b + 1) ≤ 2 ^ (s + 1) := Nat.pow_le_pow_right (by norm_num) (by omega)
    rw [pow_succ] at this
    omega
  have hP0 : 0 < 2 ^ s := pow_pos (by norm_num) s
  generalize 2 ^ s = P at hP hP0
  have hdm := Nat.div_add_mod a b
  have hmod := Nat.mod_lt a hb0
  generalize a / b = k at hdm
  generalize a % b = r at hdm hmod
  subst hdm
  by_cases hr0 : r = 0
  · subst hr0
    simp only [Nat.add_zero]
    rw [roundHalfEven_exact b k P hb0]
    refine ⟨?_, ?_⟩
    · have e1 : (k * P + P - 1) / P = k := by
        apply Nat.div_eq_of_lt_le
        · omega
        · rw [Nat.succ_mul]; omega
      have e2 : (b * k + b - 1) / b = k := by
        apply Nat.div_eq_of_lt_le
        · rw [Nat.mul_comm]; omega
        · rw [Nat.succ_mul, Nat.mul_comm]; omega
      rw [e1, e2]
    · exact Nat.mul_div_cancel _ hP0
  · obtain ⟨h1, h2⟩ := roundHalfEven_between b k r P (by omega) hmod hP
    generalize roundHalfEven ((b * k + r) * P) b = m at h1 h2
    rw [Nat.succ_mul] at h2
    refine ⟨?_, ?_⟩
    · have e1 : (m + P - 1) / P = k + 1 := by
        apply Nat.div_eq_of_lt_le
        · rw [Nat.succ_mul]; omega
        · rw [Nat.succ_mul, Nat.succ_mul]; omega
      have e2 : (b * k + r + b - 1) / b = k + 1 := by
        apply Nat.div_eq_of_lt_le
        · rw [Nat.succ_mul, Nat.mul_comm]; omega
        · rw [Nat.succ_mul, Nat.succ_mul, Nat.mul_comm]; omega
      rw [e1, e2]
    · apply Nat.div_eq_of_lt_le
      · omega
      · rw [Nat.succ_mul]; omega


theorem negDiv_upper (t n : Int) (hn : 0 < n) : t ≤ -((-t) / n) * n := by
  have h := Int.ediv_mul_le (-t) (ne_of_gt hn)
  linarith

theorem negDiv_least (t n d : Int) (hn : 0 < n) (h : t ≤ d * n) : -((-t) / n) ≤ d := by
  have h1 : -d ≤ (-t) / n := by
    rw [Int.le_ediv_iff_mul_le hn]
    linarith
  linarith

theorem negDiv_eq_ceil (t n : Int) (hn : 0 < n) :
    -((-t) / n) = ⌈(t : ℚ) / (n : ℚ)⌉ := by
  symm
  rw [Int.ceil_eq_iff]
  have hq : (0 : ℚ) < (n : ℚ) := by exact_mod_cast hn
  constructor
  · rw [lt_div_iff₀ hq]
    have h : ¬ (t ≤ (-((-t) / n) - 1) * n) := by
      intro hle
      have := negDiv_least t n _ hn hle
      omega
    have h2 : (-((-t) / n) - 1) * n < t := lt_of_not_le h
    exact_mod_cast h2
  · rw [div_le_iff₀ hq]
    exact_mod_cast negDiv_upper t n hn

theorem natCeil_eq_negDiv (a b : Nat) (hb0 : 0 < b) :
    (((a + b - 1) / b : Nat) : Int) = -((-(a : Int)) / (b : Int)) := by
  have hdm := Nat.div_add_mod (a + b - 1) b
  have hmod := Nat.mod_lt (a + b - 1) hb0
  generalize (a + b - 1) / b = c at hdm
  generalize (a + b - 1) % b = r at hdm hmod
  have hn : (0 : Int) < (b : Int) := by exact_mod_cast hb0
  have hup : (a : Int) ≤ (c : Int) * (b : Int) := by
    have : a ≤ c * b := by rw [Nat.mul_comm]; omega
    exact_mod_cast this
  have hlow : ((c : Int) - 1) * (b : Int) < (a : Int) := by
    have : c * b < a + b := by rw [Nat.mul_comm]; omega
    have h2 : (c : Int) * (b : Int) < (a : Int) + (b : Int) := by exact_mod_cast this
    linarith
  have h1 := negDiv_least (a : Int) (b : Int) (c : Int) hn hup
  have h2 := negDiv_upper (a : Int) (b : Int) hn
  have h3 : ((c : Int) - 1) * (b : Int) < -((-(a : Int)) / (b : Int)) * (b : Int) :=
    lt_of_lt_of_le hlow h2
  have h4 := lt_of_mul_lt_mul_right h3 (le_of_lt hn)
  omega

/-- For safe integers, `Math.ceil` of the double quotient is the exact ceiling. -/
theorem ceilDiv_safe (t n : Int) (ht0 : 0 ≤ t) (ht : t < 2 ^ 53) (hn0 : 0 < n)
    (hn : n < 2 ^ 53) : ceilDiv t n = Num.fin (-((-t) / n)) := by
  unfold ceilDiv
  rw [if_neg (by omega)]
  by_cases h0 : t = 0
  · subst h0
    simp
  · rw [if_neg h0]
    have hta : ((t.natAbs : Nat) : Int) = t := Int.natAbs_of_nonneg ht0
    have hna : ((n.natAbs : Nat) : Int) = n := Int.natAbs_of_nonneg (le_of_lt hn0)
    have ha0 : 0 < t.natAbs := by omega
    have hb0 : 0 < n.natAbs := by omega
    have ha : t.natAbs < 2 ^ 53 := by
      have : ((t.natAbs : Nat) : Int) < 2 ^ 53 := by rw [hta]; exact ht
      exact_mod_cast this
    have hb : n.natAbs < 2 ^ 53 := by
      have : ((n.natAbs : Nat) : Int) < 2 ^ 53 := by rw [hna]; exact hn
      exact_mod_cast this
    have hpos : (decide (0 < t) = decide (0 < n)) := by
      have h1 : 0 < t := by omega
      simp [h1, hn0]
    simp only
    rw [if_pos hpos, (divDouble_safe t.natAbs n.natAbs ha0 ha hb0 hb).1,
      natCeil_eq_negDiv _ _ hb0, hta, hna]

theorem ceilDiv_ne_nan (t n : Int) (hn : n ≠ 0) : ceilDiv t n ≠ Num.nan := by
  unfold ceilDiv
  rw [if_neg hn]
  split
  · simp
  · simp only
    split <;> simp

theorem preSave_cost (tr : Modified) (m : Match)
    (hmod : tr.totalCost = true ∨ tr.maxPlayers = true) (hn : m.maxPlayers ≠ 0) :
    (preSave tr m).costPerPlayer = ceilDiv m.totalCost m.maxPlayers := by
  unfold preSave
  have h1 : (tr.totalCost || tr.maxPlayers) = true := by
    rcases hmod with h | h <;> simp [h]
  have h2 := ceilDiv_ne_nan m.totalCost m.maxPlayers hn
  simp [h1, h2]

theorem mem_modifyFirst (q : Player → Bool) (f : Player → Player) (ps : List Player)
    (p : Player) (h : p ∈ modifyFirst q f ps) : p ∈ ps ∨ ∃ x ∈ ps, p = f x := by
  induction ps with
  | nil => simp [modifyFirst] at h
  | cons x xs ih =>
    simp only [modifyFirst] at h
    split at h
    · rcases List.mem_cons.mp h with h1 | h1
      · exact Or.inr ⟨x, List.mem_cons_self _ _, h1⟩
      · exact Or.inl (List.mem_cons_of_mem _ h1)
    · rcases List.mem_cons.mp h with h1 | h1
      · exact Or.inl (h1 ▸ List.mem_cons_self _ _)
      · rcases ih h1 with h2 | ⟨y, hy, h2⟩
        · exact Or.inl (List.mem_cons_of_mem _ h2)
        · exact Or.inr ⟨y, List.mem_cons_of_mem _ hy, h2⟩

theorem createMatch_stored (b : CreateBody) (organizer : Nat) (matchId : String) (now : Int)
    (m : Match) (h : (createMatch b organizer matchId now).2 = some m) :
    (createDraft b organizer matchId now).schemaValid = true ∧
      m = preSave (createTracking b) (createDraft b organizer matchId now) := by
  unfold createMatch at h
  split at h
  · simp at h
  · split at h
    · simp at h
    · split at h
      · simp at h
      · split at h
        · simp at h
        · rename_i s hs
          simp at h
          subst h
          exact save_eq_some _ _ _ hs

theorem createDraft_quick (b : CreateBody) (organizer : Nat) (matchId : String) (now : Int)
    (h : (createDraft b organizer matchId now).isQuickMatch = true) :
    (createDraft b organizer matchId now).status = MatchStatus.started := by
  unfold createDraft at h ⊢
  split
  · rfl
  · rename_i hq; simp [hq] at h

theorem preSave_isQuickMatch (tr : Modified) (m : Match) :
    (preSave tr m).isQuickMatch = m.isQuickMatch := rfl

theorem engineInv_create (b : CreateBody) (organizer : Nat) (matchId : String) (now : Int)
    (m : Match) (h : (createMatch b organizer matchId now).2 = some m) : EngineInv m := by
  have hm := (createMatch_stored b organizer matchId now m h).2
  intro hq
  rw [hm, preSave_isQuickMatch] at hq
  rw [hm, preSave_status, createDraft_quick _ _ _ _ hq]
  decide

theorem engineInv_step (op : Op) (m saved : Match) (hinv : EngineInv m)
    (hrun : op.run m = some saved) : EngineInv saved := by
  cases op with
  | join user now =>
    obtain ⟨hst, _, hs⟩ := joinMatch_result m saved user now hrun
    intro hq
    rw [hs] at hq
    exact absurd hst (hinv hq)
  | leave user now =>
    have := leaveMatch_result m user now
    simp only [Op.run] at hrun
    rw [this] at hrun
    cases hrun
  | payment user status details now =>
    obtain ⟨hupd, _⟩ := paymentUpdate_result m saved user status details now hrun
    unfold Match.updatePaymentStatus at hupd
    split at hupd
    · cases hupd
    · cases hupd
      exact hinv
  | start =>
    obtain ⟨hst, hs⟩ := startMatch_result m saved hrun
    subst hs
    exact fun hq => absurd hst (hinv hq)
  | complete now =>
    obtain ⟨_, hs⟩ := completeMatch_result m saved now hrun
    subst hs
    split
    · exact fun _ => by simp
    · exact fun _ => by simp
  | completeDetails body now =>
    obtain ⟨_, _, _, _, hs⟩ := completeDetails_result m saved body now hrun
    intro _
    rw [hs, preSave_status]
    simp [completeDetailsDraft]
  | cancel =>
    have hs := cancelMatch_result m saved hrun
    subst hs
    exact fun _ => by simp

theorem reachable_engineInv (m : Match) (h : Reachable m) : EngineInv m := by
  induction h with
  | create b organizer matchId now m hm => exact engineInv_create b organizer matchId now m hm
  | step op m saved _ hrun ih => exact engineInv_step op m saved ih hrun

theorem schemaValid_status (m : Match) (s : MatchStatus)
    (h : (s == MatchStatus.completed) = (m.status == MatchStatus.completed)) :
    ({ m with status := s } : Match).schemaValid = m.schemaValid := by
  unfold Match.schemaValid
  simp only [h]

theorem schemaValid_completed (m : Match) (h : m.schemaValid = true) :
    ({ m with status := MatchStatus.completed } : Match).schemaValid = true := by
  unfold Match.schemaValid at h ⊢
  simp only [Bool.and_eq_true, Bool.or_eq_true, beq_self_eq_true, Bool.or_true, Bool.true_or] at h ⊢
  obtain ⟨⟨⟨⟨⟨⟨⟨⟨⟨h1, h2⟩, _⟩, h4⟩, h5⟩, h6⟩, h7⟩, h8⟩, h9⟩, h10⟩ := h
  simp_all

theorem schemaValid_quick (m : Match) (s : MatchStatus) (hq : m.isQuickMatch = true)
    (e : Option Int) (d : Option Int) (h : m.schemaValid = true) :
    ({ m with status := s, actualEndTime := e, actualDuration := d } : Match).schemaValid = true := by
  unfold Match.schemaValid at h ⊢
  simp only [hq, Bool.true_or] at h ⊢
  exact h

theorem completeMatch_of_valid (m : Match) (now : Int) (h : m.status = MatchStatus.started)
    (hv : (if m.isQuickMatch then
        ({ m with
          status := MatchStatus.pendingDetails
          actualEndTime := some now
          actualDuration := some (roundMinutes (now - m.dateTime)) } : Match)
      else { m with status := MatchStatus.completed }).schemaValid = true) :
    (completeMatch m now).response.status = 200 ∧
    (completeMatch m now).stored =
      (if m.isQuickMatch then
        ({ m with
          status := MatchStatus.pendingDetails
          actualEndTime := some now
          actualDuration := some (roundMinutes (now - m.dateTime)) } : Match)
      else { m with status := MatchStatus.completed }) := by
  unfold completeMatch save
  rw [if_neg (by simp [h])]
  simp only
  rw [if_pos hv, preSave_untracked]
  exact ⟨rfl, rfl⟩

theorem updatePaymentStatus_status (m saved : Match) (user : Nat) (status : PaymentStatus)
    (d : PaymentDetails) (now : Int)
    (h : m.updatePaymentStatus user status d now = Except.ok saved) :
    saved.status = m.status := by
  unfold Match.updatePaymentStatus at h
  split at h
  · cases h
  · cases h; rfl

theorem after_of_none (op : Op) (m : Match) (h : op.run m = none) : op.after m = m := by
  unfold Op.after; rw [h]; rfl

theorem after_of_some (op : Op) (m saved : Match) (h : op.run m = some saved) :
    op.after m = saved := by
  unfold Op.after; rw [h]; rfl

/-- The status after a successful operation, by operation. -/
theorem run_status (op : Op) (m saved : Match) (h : op.run m = some saved) :
    (saved.status = m.status) ∨
    (m.status = MatchStatus.open ∧ saved.status = MatchStatus.started) ∨
    (m.status = MatchStatus.started ∧
      (saved.status = MatchStatus.completed ∨ saved.status = MatchStatus.pendingDetails)) ∨
    (m.status = MatchStatus.pendingDetails ∧ saved.status = MatchStatus.completed) ∨
    (op = Op.cancel ∧ saved.status = MatchStatus.cancelled) := by
  cases op with
  | join user now =>
    exact Or.inl (by rw [(joinMatch_result m saved user now h).2.2]; rfl)
  | leave user now =>
    have := leaveMatch_result m user now
    simp only [Op.run] at h
    rw [this] at h
    cases h
  | payment user status details now =>
    exact Or.inl (updatePaymentStatus_status m saved user status details now
      (paymentUpdate_result m saved user status details now h).1)
  | start =>
    obtain ⟨h1, h2⟩ := startMatch_result m saved h
    exact Or.inr (Or.inl ⟨h1, by rw [h2]⟩)
  | complete now =>
    obtain ⟨h1, h2⟩ := completeMatch_result m saved now h
    refine Or.inr (Or.inr (Or.inl ⟨h1, ?_⟩))
    rw [h2]
    split
    · exact Or.inr rfl
    · exact Or.inl rfl
  | completeDetails body now =>
    obtain ⟨_, _, h1, _, h2⟩ := completeDetails_result m saved body now h
    refine Or.inr (Or.inr (Or.inr (Or.inl ⟨h1, ?_⟩)))
    rw [h2, preSave_status]
    rfl
  | cancel =>
    have h2 := cancelMatch_result m saved h
    exact Or.inr (Or.inr (Or.inr (Or.inr ⟨rfl, by rw [h2]⟩)))

theorem isUser_of_ne (u : Nat) (q : Player) (h : q.user ≠ u) : isUser u q = false := by
  simp [isUser, h]

theorem isUser_of_id (u : Nat) (p : Player) (hu : p.user = u) (hp : p.populated = false) :
    isUser u p = true := by
  simp [isUser, hu, hp]

theorem find?_isUser_none (u : Nat) (ps : List Player) (h : ∀ q ∈ ps, q.user ≠ u) :
    ps.find? (isUser u) = none := by
  rw [List.find?_eq_none]
  intro q hq
  simp [isUser_of_ne u q (h q hq)]

theorem find?_isUser_split (u : Nat) (pre post : List Player) (p : Player)
    (hpre : ∀ q ∈ pre, q.user ≠ u) (hu : p.user = u) (hp : p.populated = false) :
    (pre ++ p :: post).find? (isUser u) = some p := by
  induction pre with
  | nil => simp [List.find?_cons, isUser_of_id u p hu hp]
  | cons x xs ih =>
    have hx : isUser u x = false := isUser_of_ne u x (hpre x (List.mem_cons_self _ _))
    simp only [List.cons_append, List.find?_cons, hx]
    exact ih (fun q hq => hpre q (List.mem_cons_of_mem _ hq))

theorem modifyFirst_split (u : Nat) (f : Player → Player) (pre post : List Player) (p : Player)
    (hpre : ∀ q ∈ pre, q.user ≠ u) (hu : p.user = u) (hp : p.populated = false) :
    modifyFirst (isUser u) f (pre ++ p :: post) = pre ++ f p :: post := by
  induction pre with
  | nil => simp [modifyFirst, isUser_of_id u p hu hp]
  | cons x xs ih =>
    have hx : isUser u x = false := isUser_of_ne u x (hpre x (List.mem_cons_self _ _))
    have ih2 := ih (fun q hq => hpre q (List.mem_cons_of_mem _ hq))
    show modifyFirst (isUser u) f (x :: (xs ++ p :: post)) = x :: (xs ++ f p :: post)
    rw [modifyFirst, hx, ih2]
    simp

theorem filter_not_isUser_of_none (u : Nat) (ps : List Player) (h : ∀ q ∈ ps, q.user ≠ u) :
    ps.filter (fun q => !isUser u q) = ps := by
  rw [List.filter_eq_self]
  intro q hq
  simp [isUser_of_ne u q (h q hq)]

theorem filter_not_isUser_append_new (u : Nat) (ps : List Player) (r : Player)
    (h : ∀ q ∈ ps, q.user ≠ u) (hr : r.user = u) (hp : r.populated = false) :
    (ps ++ [r]).filter (fun q => !isUser u q) = ps := by
  rw [List.filter_append, filter_not_isUser_of_none u ps h]
  simp [isUser_of_id u r hr hp]

theorem filter_isUser_append_new (u : Nat) (ps : List Player) (r : Player)
    (h : ∀ q ∈ ps, q.user ≠ u) (hr : r.user = u) (hp : r.populated = false) :
    (ps ++ [r]).filter (isUser u) = [r] := by
  rw [List.filter_append]
  have h1 : ps.filter (isUser u) = [] := by
    rw [List.filter_eq_nil_iff]
    intro q hq
    simp [isUser_of_ne u q (h q hq)]
  rw [h1]
  simp [isUser_of_id u r hr hp]

theorem modifyFirst_modifyFirst (q : Player → Bool) (f g : Player → Player)
    (hq : ∀ p, q (f p) = q p) (ps : List Player) :
    modifyFirst q g (modifyFirst q f ps) = modifyFirst q (fun p => g (f p)) ps := by
  induction ps with
  | nil => rfl
  | cons x xs ih =>
    by_cases hx : q x = true
    · simp [modifyFirst, hx, hq x]
    · simp [modifyFirst, hx, ih]

theorem find?_modifyFirst_isSome (q : Player → Bool) (f : Player → Player)
    (hq : ∀ p, q (f p) = q p) (ps : List Player) :
    ((modifyFirst q f ps).find? q).isSome = (ps.find? q).isSome := by
  induction ps with
  | nil => rfl
  | cons x xs ih =>
    by_cases hx : q x = true
    · simp [modifyFirst, hx, hq x, List.find?_cons]
    · simp [modifyFirst, hx, ih, List.find?_cons]

theorem isUser_applyPayment (u : Nat) (s : PaymentStatus) (d : PaymentDetails) (now : Int)
    (p : Player) : isUser u (applyPayment s d now p) = isUser u p := by
  unfold applyPayment isUser
  split <;> rfl

theorem applyPayment_paid_twice (d : PaymentDetails) (t1 t2 : Int) (p : Player) :
    applyPayment PaymentStatus.paid d t2 (applyPayment PaymentStatus.paid d t1 p) =
      applyPayment PaymentStatus.paid d t2 p := by
  simp [applyPayment]

theorem applyPayment_paid_withoutPaidAt (d : PaymentDetails) (t1 t2 : Int) (p : Player) :
    (applyPayment PaymentStatus.paid d t2 p).withoutPaidAt =
      (applyPayment PaymentStatus.paid d t1 p).withoutPaidAt := by
  simp [applyPayment, Player.withoutPaidAt]

theorem map_withoutPaidAt_modifyFirst (q : Player → Bool) (f g : Player → Player)
    (h : ∀ p, (f p).withoutPaidAt = (g p).withoutPaidAt) (ps : List Player) :
    (modifyFirst q f ps).map Player.withoutPaidAt =
      (modifyFirst q g ps).map Player.withoutPaidAt := by
  induction ps with
  | nil => rfl
  | cons x xs ih =>
    by_cases hx : q x = true
    · simp [modifyFirst, hx, h x]
    · simp [modifyFirst, hx, ih]

theorem updatePaymentStatus_ok (m m1 : Match) (u : Nat) (s : PaymentStatus) (d : PaymentDetails)
    (now : Int) (h : m.updatePaymentStatus u s d now = Except.ok m1) :
    (m.players.find? (isUser u)).isSome = true ∧
    m1 = { m with players := modifyFirst (isUser u) (applyPayment s d now) m.players } := by
  unfold Match.updatePaymentStatus at h
  split at h
  · cases h
  · rename_i hf
    cases h
    exact ⟨by rw [hf]; rfl, rfl⟩

theorem updatePaymentStatus_of_found (m : Match) (u : Nat) (s : PaymentStatus)
    (d : PaymentDetails) (now : Int) (h : (m.players.find? (isUser u)).isSome = true) :
    m.updatePaymentStatus u s d now =
      Except.ok { m with players := modifyFirst (isUser u) (applyPayment s d now) m.players } := by
  unfold Match.updatePaymentStatus
  split
  · rename_i hf; rw [hf] at h; cases h
  · rfl

theorem collected_withoutPaidAt (ps : List Player) :
    collected (ps.map Player.withoutPaidAt) = collected ps := by
  unfold collected
  rw [List.foldl_map]
  rfl

theorem schemaValid_withoutPaidAt (p : Player) :
    p.withoutPaidAt.schemaValid = p.schemaValid := rfl

theorem all_schemaValid_of_withoutPaidAt (ps qs : List Player)
    (h : ps.map Player.withoutPaidAt = qs.map Player.withoutPaidAt) :
    ps.all Player.schemaValid = qs.all Player.schemaValid := by
  have key : ∀ l : List Player,
      l.all Player.schemaValid = (l.map Player.withoutPaidAt).all Player.schemaValid := by
    intro l
    induction l with
    | nil => rfl
    | cons x xs ih => simp only [List.map_cons, List.all_cons, ih, schemaValid_withoutPaidAt]
  rw [key ps, key qs, h]

theorem schemaValid_players_congr (m : Match) (ps qs : List Player)
    (h : ps.all Player.schemaValid = qs.all Player.schemaValid) :
    ({ m with players := ps } : Match).schemaValid = ({ m with players := qs } : Match).schemaValid := by
  unfold Match.schemaValid
  simp only [h]

/-- What `applyPayment` assigns. -/
theorem applyPayment_fields (s : PaymentStatus) (d : PaymentDetails) (now : Int) (p : Player) :
    (s = PaymentStatus.paid →
      applyPayment s d now p =
        { p with
          paymentStatus := PaymentStatus.paid
          paidAmount := (match d.amount with
            | some a => if a = 0 then p.amountToPay else Num.fin a
            | none => p.amountToPay)
          paymentMethod := d.method
          paymentId := d.paymentId
          paidAt := some now }) ∧
    (s ≠ PaymentStatus.paid → applyPayment s d now p = { p with paymentStatus := s }) := by
  constructor
  · intro h
    subst h
    unfold applyPayment
    rw [if_pos rfl]
    cases hd : d.amount with
    | none => rfl
    | some a =>
      by_cases ha : a = 0
      · simp [ha]
      · simp [ha]
  · intro h
    unfold applyPayment
    rw [if_neg h]

/-- `addPlayer` without an amount for a user with no record, a slot being free. -/
theorem addPlayer_of_new (m : Match) (userId : Nat) (now : Int)
    (hnone : ∀ p ∈ m.players, p.user ≠ userId)
    (hfree : (m.joinedPlayers.length : Int) < m.maxPlayers) :
    m.addPlayer userId none now =
      Except.ok { m with players := m.players ++ [newPlayer userId m.costPerPlayer now] } := by
  unfold Match.addPlayer
  rw [find?_isUser_none userId m.players hnone]
  simp only
  rw [if_neg (by omega)]

/-- After a first join, a payment status update to a status other than `paid`
followed by `removePlayer` gives back the match as it was. -/
theorem leave_after_unpaid_update (m : Match) (userId : Nat) (t1 t2 t : Int)
    (s : PaymentStatus) (d : PaymentDetails)
    (hnone : ∀ p ∈ m.players, p.user ≠ userId) (hs : s ≠ PaymentStatus.paid) :
    ∃ m2 : Match,
      ({ m with players := m.players ++ [newPlayer userId m.costPerPlayer t1] } :
        Match).updatePaymentStatus userId s d t = Except.ok m2 ∧
      m2.removePlayer userId t2 = Except.ok m := by
  have hfound := find?_isUser_split userId m.players [] (newPlayer userId m.costPerPlayer t1)
    hnone rfl rfl
  refine ⟨{ m with players := m.players ++ [applyPayment s d t (newPlayer userId m.costPerPlayer t1)] },
    ?_, ?_⟩
  · unfold Match.updatePaymentStatus
    simp only
    rw [hfound]
    simp only
    rw [modifyFirst_split userId _ m.players [] _ hnone rfl rfl]
  · have hu : (applyPayment s d t (newPlayer userId m.costPerPlayer t1)).user = userId := by
      rw [(applyPayment_fields s d t _).2 hs]; rfl
    have hp : (applyPayment s d t (newPlayer userId m.costPerPlayer t1)).populated = false := by
      rw [(applyPayment_fields s d t _).2 hs]; rfl
    have hst : (applyPayment s d t (newPlayer userId m.costPerPlayer t1)).paymentStatus ≠
        PaymentStatus.paid := by
      rw [(applyPayment_fields s d t _).2 hs]; exact hs
    unfold Match.removePlayer
    simp only
    rw [find?_isUser_split userId m.players [] _ hnone hu hp]
    simp only
    rw [if_neg hst, filter_not_isUser_append_new userId m.players _ hnone hu hp]

/-- What the quick branch of create stores. -/
theorem createMatch_quick_defaults (b : CreateBody) (organizer : Nat) (matchId : String)
    (now : Int) (m : Match) (hq : b.isQuickMatch = some true)
    (h : (createMatch b organizer matchId now).2 = some m) :
    m.status = MatchStatus.started ∧ m.isQuickMatch = true ∧
    (strTruthy b.title = false → m.title = "Quick Match") ∧
    (strTruthy b.venueName = false → strTruthy b.venueAddress = false →
      m.venueName = "TBD" ∧ m.venueAddress = "To be determined") := by
  have hm := (createMatch_stored b organizer matchId now m h).2
  subst hm
  unfold preSave createDraft
  simp only [hq, if_true]
  refine ⟨trivial, trivial, ?_, ?_⟩
  · intro ht
    simp only [strOrElse, ht, Bool.false_eq_true, if_false]
    decide
  · intro h1 h2
    simp only [h1, h2, Bool.not_false, Bool.and_self, if_true]
    decide

theorem requireMatchOrganizer_eq_none (reqMatch : Option Match) (reqUser : Option User) :
    requireMatchOrganizer reqMatch reqUser = none ↔
      ∃ m user, reqMatch = some m ∧ reqUser = some user ∧
        ((m.organizerPopulated = false ∧ m.organizer = user.id) ∨ user.role = Role.admin) := by
  unfold requireMatchOrganizer
  cases reqMatch with
  | none => simp
  | some m =>
    cases reqUser with
    | none => simp
    | some user =>
      by_cases ha : user.role = Role.admin
      · simp [ha]
      · by_cases ho : m.organizer = user.id
        · cases hp : m.organizerPopulated <;> simp [ho, ha, hp]
        · simp [ho, ha]

/-- The divisor of complete-details is positive when `actualPlayers` is supplied
or somebody is joined. -/
theorem finalPlayerCount_pos (m : Match) (b : CompleteDetailsBody) (hv : b.valid = true)
    (h : b.actualPlayers ≠ none ∨ m.joinedPlayers ≠ []) : 1 ≤ finalPlayerCount m b := by
  unfold finalPlayerCount orElse
  cases ha : b.actualPlayers with
  | some a =>
    have : 1 ≤ a := by
      unfold CompleteDetailsBody.valid at hv
      simp [ha] at hv
      exact hv.2
    simp only
    split <;> simp_all
  | none =>
    simp only
    rcases h with h | h
    · exact absurd ha h
    · have : 0 < m.joinedPlayers.length := List.length_pos.mpr h
      omega

/-- The error handler on a duplicate-key error of the `email` index. -/
theorem errorHandler_duplicate_email :
    errorHandler false duplicateEmail =
      Except.error "TypeError: err.code.startsWith is not a function" := rfl

/-- The error handler on a validation error of `save()`. -/
theorem errorHandler_validation :
    errorHandler false
        { name := "ValidationError", message := "Match validation failed"
          errors := some [("maxPlayers", "too small")] } =
      Except.ok { status := 400, message := "too small", errorName := "ValidationError",
                  validationErrors := some [("maxPlayers", "too small")] } := rfl

/-- The statuses the other payment methods and handlers assign are in the enum. -/
theorem assigned_statuses_in_enum (p : Payment) (id sig reason : Option String) (now : Int) :
    paymentStatuses.contains (p.markAsPaidDraft id sig now).status = true ∧
    paymentStatuses.contains (p.markAsFailedDraft reason).status = true ∧
    paymentStatuses.contains (markCashPaymentDraft p).status = true ∧
    paymentStatuses.contains (handlePaymentCapturedDraft p id now).status = true ∧
    paymentStatuses.contains (handlePaymentFailedDraft p).status = true ∧
    paymentStatuses.contains (handleRefundDraft "refund.processed" p).status = true :=
  ⟨rfl, rfl, rfl, rfl, rfl, rfl⟩

theorem laterThan_laterThan (x y : Int) (h : y ≤ x) (l : List Int) :
    laterThan x (laterThan y l) = laterThan x l := by
  unfold laterThan
  rw [List.filter_filter]
  apply List.filter_congr
  intro ts _
  by_cases hx : x < ts
  · have : y < ts := lt_of_le_of_lt h hx
    simp [hx, this]
  · simp [hx]

theorem laterThan_append (x : Int) (l₁ l₂ : List Int) :
    laterThan x (l₁ ++ l₂) = laterThan x l₁ ++ laterThan x l₂ := by
  unfold laterThan; exact List.filter_append _ _

theorem timestampsOf_append_one (accepted : List (String × Int)) (key₀ key : String)
    (now : Int) :
    timestampsOf (accepted ++ [(key₀, now)]) key =
      timestampsOf accepted key ++ (if key₀ = key then [now] else []) := by
  unfold timestampsOf
  rw [List.filter_append, List.map_append]
  by_cases h : key₀ = key
  · simp [h]
  · simp [h]

theorem countInWindow_append (a b : List (String × Int)) (key : String) (w t : Int) :
    countInWindow (a ++ b) key w t = countInWindow a key w t + countInWindow b key w t := by
  unfold countInWindow
  rw [List.filter_append, List.length_append]

theorem countInWindow_le_laterThan (accepted : List (String × Int)) (key : String)
    (w t x : Int) (h : x ≤ t - w) :
    countInWindow accepted key w t ≤ (laterThan x (timestampsOf accepted key)).length := by
  induction accepted with
  | nil => simp [countInWindow]
  | cons r rest ih =>
    unfold countInWindow timestampsOf laterThan at ih ⊢
    by_cases hk : r.1 = key
    · by_cases h1 : t - w < r.2
      · have hx : x < r.2 := lt_of_le_of_lt h h1
        by_cases h2 : r.2 ≤ t
        · simp only [List.filter_cons, hk, h1, h2, hx, decide_True, Bool.and_self, if_true,
            List.map_cons, List.length_cons]
          omega
        · simp only [List.filter_cons, hk, h1, h2, hx, decide_True, decide_False, Bool.and_false,
            Bool.false_eq_true, if_false, if_true, List.map_cons, List.length_cons]
          omega
      · by_cases hx : x < r.2
        · simp only [List.filter_cons, hk, h1, hx, decide_True, decide_False, Bool.and_false,
            Bool.false_and, Bool.false_eq_true, if_false, if_true, List.map_cons,
            List.length_cons]
          omega
        · simp only [List.filter_cons, hk, h1, hx, decide_True, decide_False, Bool.and_false,
            Bool.false_and, Bool.false_eq_true, if_false, if_true, List.map_cons]
          exact ih
    · simp only [List.filter_cons, hk, decide_False, Bool.false_and, Bool.false_eq_true, if_false]
      exact ih

theorem rateInv_reject (maxRequests : Nat) (w : Int) (st : String → List Int)
    (accepted : List (String × Int)) (last now : Int) (hle : last ≤ now)
    (h : RateInv maxRequests w st accepted last) : RateInv maxRequests w st accepted now := by
  obtain ⟨ha, hb, hc⟩ := h
  exact ⟨fun r hr => le_trans (ha r hr) hle, fun key x hx => hb key x (by omega), hc⟩

theorem rateInv_accept (maxRequests : Nat) (w : Int) (st : String → List Int)
    (accepted : List (String × Int)) (last now : Int) (key₀ : String) (hle : last ≤ now)
    (hfree : (laterThan (now - w) (st key₀)).length < maxRequests)
    (h : RateInv maxRequests w st accepted last) :
    RateInv maxRequests w
      (fun key => if key = key₀ then laterThan (now - w) (st key₀) ++ [now] else st key)
      (accepted ++ [(key₀, now)]) now := by
  obtain ⟨ha, hb, hc⟩ := h
  refine ⟨?_, ?_, ?_⟩
  · intro r hr
    rcases List.mem_append.mp hr with h1 | h1
    · exact le_trans (ha r h1) hle
    · simp only [List.mem_singleton] at h1
      rw [h1]
  · intro key x hx
    rw [timestampsOf_append_one, laterThan_append, hb key x (by omega)]
    by_cases hk : key = key₀
    · subst hk
      simp only [if_true]
      rw [laterThan_append, laterThan_laterThan x (now - w) hx]
    · have hk' : ¬ key₀ = key := fun e => hk e.symm
      simp only [hk, hk', if_false]
      simp [laterThan]
  · intro key t
    rw [countInWindow_append]
    by_cases hin : key₀ = key ∧ t - w < now ∧ now ≤ t
    · obtain ⟨hk, h1, h2⟩ := hin
      subst hk
      have hone : countInWindow [(key₀, now)] key₀ w t = 1 := by
        simp [countInWindow, h1, h2]
      have hle2 := countInWindow_le_laterThan accepted key₀ w t (now - w) (by omega)
      rw [hb key₀ (now - w) (by omega)] at hle2
      omega
    · have hzero : countInWindow [(key₀, now)] key w t = 0 := by
        unfold countInWindow
        simp only [List.length_eq_zero, List.filter_eq_nil_iff, List.mem_singleton]
        intro r hr
        subst hr
        simp only [Bool.and_eq_true, decide_eq_true_eq, not_and]
        intro a b
        exact hin ⟨a.1, a.2, b⟩
      have := hc key t
      omega

theorem served_window_bound (maxRequests : Nat) (w : Int) (requests : List (String × Int)) :
    ∀ (st : String → List Int) (accepted : List (String × Int)) (last : Int),
      RateInv maxRequests w st accepted last →
      (∀ r ∈ requests, last ≤ r.2) →
      List.Pairwise (fun a b => a.2 ≤ b.2) requests →
      ∀ (key : String) (t : Int),
        countInWindow (accepted ++ served maxRequests w st requests) key w t ≤ maxRequests := by
  induction requests with
  | nil =>
    intro st accepted last hinv _ _ key t
    simp only [served, List.append_nil]
    exact hinv.2.2 key t
  | cons r rest ih =>
    intro st accepted last hinv hlast hsorted key t
    obtain ⟨key₀, now⟩ := r
    have hnow : last ≤ now := hlast (key₀, now) (List.mem_cons_self _ _)
    have hrest : ∀ r ∈ rest, now ≤ r.2 := fun r hr => (List.pairwise_cons.mp hsorted).1 r hr
    have hsorted' := (List.pairwise_cons.mp hsorted).2
    by_cases hfull : maxRequests ≤ (laterThan (now - w) (st key₀)).length
    · have hstep : userRateLimit maxRequests w st key₀ now = (false, st) := by
        unfold userRateLimit
        simp only
        exact if_pos hfull
      simp only [served, hstep]
      exact ih st accepted now (rateInv_reject maxRequests w st accepted last now hnow hinv)
        hrest hsorted' key t
    · have hstep : userRateLimit maxRequests w st key₀ now =
          (true, fun key => if key = key₀ then laterThan (now - w) (st key₀) ++ [now]
            else st key) := by
        unfold userRateLimit
        simp only
        exact if_neg hfull
      simp only [served, hstep, if_true]
      have := ih _ (accepted ++ [(key₀, now)]) now
        (rateInv_accept maxRequests w st accepted last now key₀ hnow (by omega) hinv)
        hrest hsorted' key t
      simpa using this

theorem schemaValid_maxPlayers (m : Match) (h : m.schemaValid = true) : 6 ≤ m.maxPlayers := by
  unfold Match.schemaValid at h
  simp only [Bool.and_eq_true] at h
  have h7 := h.1.1.1.2
  unfold maxPlayersValid at h7
  simp only [Bool.and_eq_true, decide_eq_true_eq] at h7
  exact h7.1

theorem pending_of_syncPending (c : Num) (ps : List Player) :
    ∀ p ∈ ps.map (syncPending c), p.paymentStatus = PaymentStatus.pending → p.amountToPay = c := by
  intro p hp hpend
  obtain ⟨q, _, rfl⟩ := List.mem_map.mp hp
  unfold syncPending at hpend ⊢
  split
  · rfl
  · rename_i hq
    rw [if_neg hq] at hpend
    exact absurd hpend hq

/-- The hook either sets the amount of every pending record to the
`costPerPlayer` it leaves, or leaves the roster and `costPerPlayer` as they
are. -/
theorem preSave_players (tr : Modified) (m : Match) :
    (preSave tr m).players = m.players.map (syncPending (preSave tr m).costPerPlayer) ∨
      ((preSave tr m).players = m.players ∧ (preSave tr m).costPerPlayer = m.costPerPlayer) := by
  unfold preSave
  simp only
  rcases Bool.eq_false_or_eq_true
    ((tr.totalCost || tr.maxPlayers) && ceilDiv m.totalCost m.maxPlayers != Num.nan) with ha | ha
  · rcases Bool.eq_false_or_eq_true tr.costPerPlayer with hc | hc
    · left; simp [ha, hc]
    · rcases Bool.eq_false_or_eq_true tr.isNew with hn | hn
      · left; simp [ha, hc, hn]
      · by_cases hd : ceilDiv m.totalCost m.maxPlayers = m.costPerPlayer
        · right; simp [ha, hc, hn, hd]
        · left; simp [ha, hc, hn, hd]
  · rcases Bool.eq_false_or_eq_true tr.costPerPlayer with hc | hc
    · left; simp [ha, hc]
    · right; simp [ha, hc]

/-- The hook sets the amounts of the pending records when `costPerPlayer` is
marked modified, and on a new document when it recomputes `costPerPlayer`. -/
theorem preSave_players_modified (tr : Modified) (m : Match)
    (h : tr.costPerPlayer = true ∨
      (tr.isNew = true ∧ (tr.totalCost = true ∨ tr.maxPlayers = true) ∧ m.maxPlayers ≠ 0)) :
    (preSave tr m).players = m.players.map (syncPending (preSave tr m).costPerPlayer) := by
  unfold preSave
  simp only
  rcases h with h | ⟨hnew, hkey, hn⟩
  · simp [h]
  · have h2 := ceilDiv_ne_nan m.totalCost m.maxPlayers hn
    rcases hkey with hk | hk <;> simp [hk, hnew, h2]

/-- The hook keeps the pending amounts in sync. -/
theorem pendingInSync_preSave (tr : Modified) (m : Match) (h : PendingInSync m) :
    PendingInSync (preSave tr m) := by
  rcases preSave_players tr m with h1 | ⟨h1, h2⟩
  · intro p hp
    rw [h1] at hp
    exact pending_of_syncPending _ _ p hp
  · intro p hp hpend
    rw [h1] at hp
    rw [h2]
    exact h p hp hpend

theorem pendingInSync_preSave_modified (tr : Modified) (m : Match)
    (h : tr.costPerPlayer = true ∨
      (tr.isNew = true ∧ (tr.totalCost = true ∨ tr.maxPlayers = true) ∧ m.maxPlayers ≠ 0)) :
    PendingInSync (preSave tr m) := by
  intro p hp
  rw [preSave_players_modified tr m h] at hp
  exact pending_of_syncPending _ _ p hp

/-- The hook leaves the `costPerPlayer` complete-details has assigned: it
recomputes the same quotient. -/
theorem completeDetails_cost (m : Match) (b : CompleteDetailsBody) (now : Int) (tr : Modified) :
    (preSave tr (completeDetailsDraft m b now)).costPerPlayer =
      (completeDetailsDraft m b now).costPerPlayer := by
  unfold preSave completeDetailsDraft assignNumber
  simp only
  by_cases hq : ceilDiv (b.totalCost.getD 0) (finalPlayerCount m b) = Num.nan
  · simp [hq]
  · by_cases hr : (tr.totalCost || tr.maxPlayers) = true
    · simp [hq, hr]
    · simp [hq, hr]

theorem pendingInSync_step (op : Op) (m saved : Match) (hinv : PendingInSync m)
    (hop : ∀ user details now, op ≠ Op.payment user PaymentStatus.pending details now)
    (hrun : op.run m = some saved) : PendingInSync saved := by
  cases op with
  | join user now =>
    obtain ⟨_, _, hs⟩ := joinMatch_result m saved user now hrun
    rw [hs]
    intro p hp hpend
    simp only [asStored, List.mem_append, List.mem_map, List.mem_singleton] at hp
    rcases hp with ⟨q, hq, rfl⟩ | rfl
    · exact hinv q hq hpend
    · rfl
  | leave user now =>
    have := leaveMatch_result m user now
    simp only [Op.run] at hrun
    rw [this] at hrun
    cases hrun
  | payment user status details now =>
    obtain ⟨hupd, _⟩ := paymentUpdate_result m saved user status details now hrun
    obtain ⟨_, hs⟩ := updatePaymentStatus_ok m saved user status details now hupd
    have hst : status ≠ PaymentStatus.pending := by
      intro h
      subst h
      exact hop user details now rfl
    rw [hs]
    intro p hp hpend
    rcases mem_modifyFirst _ _ _ p hp with h1 | ⟨x, _, h1⟩
    · exact hinv p h1 hpend
    · exfalso
      apply hst
      rw [h1] at hpend
      unfold applyPayment at hpend
      split at hpend
      · exact hpend
      · exact hpend
  | start =>
    obtain ⟨_, hs⟩ := startMatch_result m saved hrun
    subst hs
    exact hinv
  | complete now =>
    obtain ⟨_, hs⟩ := completeMatch_result m saved now hrun
    subst hs
    split <;> exact hinv
  | completeDetails body now =>
    obtain ⟨_, _, _, _, hs⟩ := completeDetails_result m saved body now hrun
    rw [hs]
    by_cases hc : (completeDetailsDraft m body now).costPerPlayer = m.costPerPlayer
    · apply pendingInSync_preSave
      intro p hp hpend
      rw [hc]
      have hp2 : p ∈ m.players.map (resetJoined m.costPerPlayer) := by
        have : (completeDetailsDraft m body now).players =
            m.players.map (resetJoined (completeDetailsDraft m body now).costPerPlayer) := rfl
        rw [this, hc] at hp
        exact hp
      obtain ⟨q, hq, rfl⟩ := List.mem_map.mp hp2
      unfold resetJoined at hpend ⊢
      split
      · rfl
      · rename_i hj
        rw [if_neg hj] at hpend
        exact hinv q hq hpend
    · apply pendingInSync_preSave_modified
      left
      simp [hc]
  | cancel =>
    have hs := cancelMatch_result m saved hrun
    subst hs
    exact hinv

theorem pendingInSync_create (b : CreateBody) (organizer : Nat) (matchId : String) (now : Int)
    (m : Match) (h : (createMatch b organizer matchId now).2 = some m)
    (hkey : b.isQuickMatch = some true ∨ b.totalCost.isSome = true ∨ b.maxPlayers.isSome = true ∨
      b.costPerPlayer.isSome = true ∨ b.players = []) : PendingInSync m := by
  obtain ⟨hv, hm⟩ := createMatch_stored b organizer matchId now m h
  have hn : (createDraft b organizer matchId now).maxPlayers ≠ 0 := by
    have := schemaValid_maxPlayers _ hv
    omega
  rw [hm]
  by_cases hq : b.isQuickMatch = some true
  · apply pendingInSync_preSave_modified
    left
    simp [createTracking, hq]
  · rcases hkey with h1 | h1 | h1 | h1 | h1
    · exact absurd h1 hq
    · apply pendingInSync_preSave_modified
      right
      simp [createTracking, hq, h1, hn]
    · apply pendingInSync_preSave_modified
      right
      simp [createTracking, hq, h1, hn]
    · apply pendingInSync_preSave_modified
      left
      simp [createTracking, hq, h1]
    · apply pendingInSync_preSave
      intro p hp
      have : (createDraft b organizer matchId now).players = [] := by
        unfold createDraft
        split <;> simp [h1]
      rw [this] at hp
      cases hp

theorem completeDetails_reset (m saved : Match) (body : CompleteDetailsBody) (now : Int)
    (hrun : (Op.completeDetails body now).run m = some saved) :
    ∀ p ∈ saved.players, p.status = ParticipationStatus.joined →
      p.paymentStatus = PaymentStatus.pending ∧ p.amountToPay = saved.costPerPlayer := by
  obtain ⟨_, _, _, _, hs⟩ := completeDetails_result m saved body now hrun
  have hcost := completeDetails_cost m body now
    { totalCost := (completeDetailsDraft m body now).totalCost != m.totalCost
      maxPlayers := (completeDetailsDraft m body now).maxPlayers != m.maxPlayers
      costPerPlayer := (completeDetailsDraft m body now).costPerPlayer != m.costPerPlayer }
  rw [← hs] at hcost
  have hdraft : ∀ q ∈ (completeDetailsDraft m body now).players,
      q.status = ParticipationStatus.joined →
        q.paymentStatus = PaymentStatus.pending ∧ q.amountToPay = saved.costPerPlayer := by
    intro q hq hj
    have : (completeDetailsDraft m body now).players =
        m.players.map (resetJoined (completeDetailsDraft m body now).costPerPlayer) := rfl
    rw [this] at hq
    obtain ⟨x, _, rfl⟩ := List.mem_map.mp hq
    rw [hcost]
    unfold resetJoined at hj ⊢
    split
    · exact ⟨rfl, rfl⟩
    · rename_i hx
      rw [if_neg hx] at hj
      exact absurd hj hx
  intro p hp hj
  have hplayers : saved.players = (completeDetailsDraft m body now).players ∨
      saved.players = (completeDetailsDraft m body now).players.map (syncPending saved.costPerPlayer) := by
    rw [hs]
    rcases preSave_players _ (completeDetailsDraft m body now) with h1 | ⟨h1, _⟩
    · right; exact h1
    · left; exact h1
  rcases hplayers with h1 | h1
  · rw [h1] at hp
    exact hdraft p hp hj
  · rw [h1] at hp
    obtain ⟨q, hq, rfl⟩ := List.mem_map.mp hp
    rw [syncPending_status] at hj
    obtain ⟨h2, h3⟩ := hdraft q hq hj
    unfold syncPending
    rw [if_pos h2]
    exact ⟨h2, rfl⟩

/-- What join stores: the match as it was, or the match with one record
appended to the records it had. -/
theorem joinMatch_stored (m : Match) (user : Nat) (now : Int) :
    (joinMatch m user now).stored = m ∨
      (joinMatch m user now).stored =
        { asStored m with
          players := (asStored m).players ++ [newPlayer user m.costPerPlayer now] } := by
  unfold joinMatch
  by_cases hst : m.status ≠ MatchStatus.open
  · left; rw [if_pos hst]; rfl
  · rw [if_neg hst, addPlayer_loadMatch]
    by_cases hfull : m.maxPlayers ≤ (joinedCount m.players : Int)
    · left; rw [if_pos hfull]; rfl
    · rw [if_neg hfull]
      simp only
      split
      · left; rfl
      · rename_i saved hs
        right
        simp only
        rw [save_untracked _ _ hs]
        exact asStored_appended m _ rfl

/-! ## Capacity (C1, C2) -/

/-- C1 (amended): starting from any match whose number of joined players is at
most `maxPlayers`, after one successful engine operation the number of joined
players is still at most `maxPlayers`, provided that complete-details is run
with a player count (`actualPlayers`, or the joined count when absent) of at
least the number of joined players. -/
theorem capacity_preserved (op : Op) (m saved : Match)
    (hcap : (m.joinedPlayers.length : Int) ≤ m.maxPlayers)
    (hrun : op.run m = some saved)
    (hdetails : ∀ body now, op = Op.completeDetails body now →
      (m.joinedPlayers.length : Int) ≤ finalPlayerCount m body) :
    (saved.joinedPlayers.length : Int) ≤ saved.maxPlayers := by
  simp only [joinedPlayers_length] at hcap hdetails ⊢
  cases op with
  | join user now =>
    obtain ⟨_, hfree, hs⟩ := joinMatch_result m saved user now hrun
    have h1 : joinedCount (asStored m).players = joinedCount m.players :=
      joinedCount_map (fun p => { p with populated := false }) (fun _ => rfl) m.players
    rw [hs]
    simp only [joinedCount_append, joinedCount_cons, joinedCount_nil, newPlayer, if_true, h1]
    show ((joinedCount m.players + (1 + 0) : Nat) : Int) ≤ m.maxPlayers
    push_cast
    omega
  | leave user now =>
    have := leaveMatch_result m user now
    simp only [Op.run] at hrun
    rw [this] at hrun
    cases hrun
  | payment user status details now =>
    have h := paymentUpdate_result m saved user status details now hrun
    exact updatePaymentStatus_capacity m saved user status details now hcap h.1
  | start =>
    have h := startMatch_result m saved hrun
    rw [h.2]; exact hcap
  | complete now =>
    have h := completeMatch_result m saved now hrun
    rw [h.2]; split <;> exact hcap
  | completeDetails body now =>
    have h := completeDetails_result m saved body now hrun
    rw [h.2.2.2.2, preSave_joinedCount, preSave_maxPlayers]
    have h1 : joinedCount (completeDetailsDraft m body now).players = joinedCount m.players :=
      joinedCount_map _ (resetJoined_status _) _
    have h2 : (completeDetailsDraft m body now).maxPlayers = finalPlayerCount m body := rfl
    rw [h1, h2]
    exact hdetails body now rfl
  | cancel =>
    have h := cancelMatch_result m saved hrun
    rw [h]; exact hcap

/-- Witness of `capacity_preserved`: the first join of the open regular match. -/
theorem capacity_preserved_witness :
    ((Op.join 1 0).run regularOpen).isSome = true ∧
    (((Op.join 1 0).after regularOpen).joinedPlayers.length : Int) ≤
      ((Op.join 1 0).after regularOpen).maxPlayers :=
  ⟨by decide,
   capacity_preserved (Op.join 1 0) regularOpen ((Op.join 1 0).after regularOpen)
     (by decide) (by decide) (by intro _ _ h; cases h)⟩

/-- C1 as stated fails: complete-details with `actualPlayers = 6` on a quick
match with seven joined players succeeds and stores `maxPlayers = 6` under
seven joined players. -/
theorem capacity_counterexample :
    ((quickPending [1, 2, 3, 4, 5, 6, 7]).joinedPlayers.length : Int) ≤
      (quickPending [1, 2, 3, 4, 5, 6, 7]).maxPlayers ∧
    ((Op.completeDetails detailsForSix 5).run (quickPending [1, 2, 3, 4, 5, 6, 7])).isSome = true ∧
    ((Op.completeDetails detailsForSix 5).after (quickPending [1, 2, 3, 4, 5, 6, 7])).maxPlayers = 6 ∧
    ((Op.completeDetails detailsForSix 5).after
      (quickPending [1, 2, 3, 4, 5, 6, 7])).joinedPlayers.length = 7 := by
  decide

/-- C2: when the joined players are at least `maxPlayers` and the user has no
participation record, `addPlayer` throws 'Match is full'; the join route then
answers 400, stores the match unchanged and emits nothing, and its message is
'Match is full' when the match is open. -/
theorem addPlayer_match_full (m : Match) (userId : Nat) (amountToPay : Option Int) (now : Int)
    (hfull : m.maxPlayers ≤ (m.joinedPlayers.length : Int))
    (hnone : ∀ p ∈ m.players, p.user ≠ userId) :
    m.addPlayer userId amountToPay now = Except.error "Match is full" ∧
    (joinMatch m userId now).stored = m ∧
    (joinMatch m userId now).response.status = 400 ∧
    (joinMatch m userId now).events = [] ∧
    (m.status = MatchStatus.open →
      (joinMatch m userId now).response.message = some "Match is full") := by
  have hfind : m.players.find? (isUser userId) = none :=
    find?_isUser_none userId m.players hnone
  have hadd : ∀ a, m.addPlayer userId a now = Except.error "Match is full" := by
    intro a
    unfold Match.addPlayer
    rw [hfind]
    simp only
    rw [if_pos hfull]
  refine ⟨hadd _, ?_⟩
  have hload : (loadMatch m).addPlayer userId none now = Except.error "Match is full" := by
    rw [addPlayer_loadMatch, if_pos (by rw [← joinedPlayers_length]; exact hfull)]
  unfold joinMatch
  by_cases hst : m.status = MatchStatus.open
  · simp [hst, hload, reject]
  · simp [hst, reject]

/-- Witness of `addPlayer_match_full`: `maxPlayers = 10`, ten joined players, the
eleventh join. -/
theorem addPlayer_match_full_witness :
    fullTen.maxPlayers = 10 ∧ fullTen.joinedPlayers.length = 10 ∧
    fullTen.addPlayer 11 none 0 = Except.error "Match is full" ∧
    (joinMatch fullTen 11 0).response.message = some "Match is full" :=
  ⟨by decide, by decide,
   (addPlayer_match_full fullTen 11 none 0 (by decide) (by decide)).1,
   (addPlayer_match_full fullTen 11 none 0 (by decide) (by decide)).2.2.2.2 (by decide)⟩

/-! ## Cost per player (C3, C4) -/

/-- C3 (amended): when `totalCost` or `maxPlayers` is marked modified and
`maxPlayers` is not zero, the pre-save hook leaves
`costPerPlayer = Math.ceil(totalCost / maxPlayers)`, the ceiling of the double
quotient; for integers `0 <= totalCost < 2^53` and `0 < maxPlayers < 2^53` this
is the ceiling of the exact quotient, the least integer `c` with
`c * maxPlayers >= totalCost`. -/
theorem preSave_costPerPlayer (tr : Modified) (m : Match)
    (hmod : tr.totalCost = true ∨ tr.maxPlayers = true) (hn : m.maxPlayers ≠ 0) :
    (preSave tr m).costPerPlayer = ceilDiv m.totalCost m.maxPlayers ∧
    (0 ≤ m.totalCost → m.totalCost < 2 ^ 53 → 0 < m.maxPlayers → m.maxPlayers < 2 ^ 53 →
      (preSave tr m).costPerPlayer = Num.fin ⌈(m.totalCost : ℚ) / (m.maxPlayers : ℚ)⌉ ∧
      ∃ c : Int, (preSave tr m).costPerPlayer = Num.fin c ∧
        m.totalCost ≤ c * m.maxPlayers ∧
        ∀ d : Int, m.totalCost ≤ d * m.maxPlayers → c ≤ d) := by
  have h := preSave_cost tr m hmod hn
  refine ⟨h, ?_⟩
  intro ht0 ht hn0 hn1
  have hs := ceilDiv_safe m.totalCost m.maxPlayers ht0 ht hn0 hn1
  refine ⟨?_, -((-m.totalCost) / m.maxPlayers), ?_, negDiv_upper _ _ hn0, ?_⟩
  · rw [h, hs, negDiv_eq_ceil _ _ hn0]
  · rw [h, hs]
  · intro d hd
    exact negDiv_least _ _ d hn0 hd

/-- Witness of `preSave_costPerPlayer`: total cost 1000 for ten players gives 100. -/
theorem preSave_costPerPlayer_witness :
    (preSave { totalCost := true } { regularOpen with costPerPlayer := Num.fin 0 }).costPerPlayer =
      Num.fin 100 ∧
    ∃ c : Int,
      (preSave { totalCost := true } { regularOpen with costPerPlayer := Num.fin 0 }).costPerPlayer =
        Num.fin c ∧
      (1000 : Int) ≤ c * 10 ∧ ∀ d : Int, (1000 : Int) ≤ d * 10 → c ≤ d :=
  ⟨by decide,
   ((preSave_costPerPlayer { totalCost := true } { regularOpen with costPerPlayer := Num.fin 0 }
     (Or.inl rfl) (by decide)).2 (by decide) (by decide) (by decide) (by decide)).2⟩

/-- C3 as stated fails: for the total cost `10 ^ 17` and six players the hook
stores 16666666666666666, the ceiling of the double nearest to the quotient;
six times that amount is below the total cost, and the least integer `c` with
`c * 6 >= 10 ^ 17` is 16666666666666667. -/
theorem costPerPlayer_counterexample :
    costlySix.totalCost = 10 ^ 17 ∧ costlySix.maxPlayers = 6 ∧ costlySix.schemaValid = true ∧
    (preSave { totalCost := true } costlySix).costPerPlayer = Num.fin 16666666666666666 ∧
    (16666666666666666 : Int) * costlySix.maxPlayers < costlySix.totalCost ∧
    costlySix.totalCost ≤ (16666666666666667 : Int) * costlySix.maxPlayers := by
  decide

/-- C4, the code at the failing input: `PUT /:matchId` with `{ totalCost: 2000 }` on
the match for ten players succeeds and stores `totalCost = 2000` beside the old
`costPerPlayer = 100`, while `Math.ceil(2000 / 10)` is 200. -/
theorem updateMatch_stale_costPerPlayer (thisIsQuick : Bool) :
    (updateMatch thisIsQuick regularOpen { totalCost := some 2000 }).response.success = true ∧
    (updateMatch thisIsQuick regularOpen { totalCost := some 2000 }).stored.totalCost = 2000 ∧
    (updateMatch thisIsQuick regularOpen { totalCost := some 2000 }).stored.maxPlayers = 10 ∧
    (updateMatch thisIsQuick regularOpen { totalCost := some 2000 }).stored.costPerPlayer =
      Num.fin 100 ∧
    ceilDiv 2000 10 = Num.fin 200 := by
  cases thisIsQuick <;> decide

/-! ## Pending amounts (C5) -/

/-- C5 (amended): the pending amounts are in sync with `costPerPlayer` (every
record whose `paymentStatus` is `pending` owes the `costPerPlayer` of the
match) in the match that create stores, when the body is that of a quick
match, or carries one of the keys `totalCost`, `maxPlayers`, `costPerPlayer`,
or carries no roster; every successful engine operation (join, leave, payment
update to a status other than `pending`, start, complete, complete-details,
cancel) keeps them in sync; and after a successful complete-details every
joined record is pending and owes the new `costPerPlayer`. -/
theorem pending_amount_in_sync :
    (∀ (b : CreateBody) (organizer : Nat) (matchId : String) (now : Int) (m : Match),
      (createMatch b organizer matchId now).2 = some m →
      (b.isQuickMatch = some true ∨ b.totalCost.isSome = true ∨ b.maxPlayers.isSome = true ∨
        b.costPerPlayer.isSome = true ∨ b.players = []) →
      PendingInSync m) ∧
    (∀ (op : Op) (m saved : Match), PendingInSync m →
      (∀ user details now, op ≠ Op.payment user PaymentStatus.pending details now) →
      op.run m = some saved → PendingInSync saved) ∧
    (∀ (m saved : Match) (body : CompleteDetailsBody) (now : Int),
      (Op.completeDetails body now).run m = some saved →
      ∀ p ∈ saved.players, p.status = ParticipationStatus.joined →
        p.paymentStatus = PaymentStatus.pending ∧ p.amountToPay = saved.costPerPlayer) :=
  ⟨pendingInSync_create, pendingInSync_step, completeDetails_reset⟩

/-- Witness of `pending_amount_in_sync`: a regular match created with a roster
owing 3 and a total cost of 1000 for ten players stores the roster owing 100;
complete-details for 600 and six players on the quick match at 50 per player,
with a paid joined record and an opted-out pending record, leaves every pending
record and every joined record owing 100. -/
theorem pending_amount_in_sync_witness :
    PendingInSync (((createMatch rosterBodyWithCost 1 "AB12CD34" 7).2).getD regularOpen) ∧
    PendingInSync ((Op.completeDetails detailsForSix 5).after quickWithRoster) ∧
    ((Op.completeDetails detailsForSix 5).after quickWithRoster).costPerPlayer = Num.fin 100 ∧
    (∀ p ∈ ((Op.completeDetails detailsForSix 5).after quickWithRoster).players,
      p.status = ParticipationStatus.joined →
        p.paymentStatus = PaymentStatus.pending ∧
        p.amountToPay = ((Op.completeDetails detailsForSix 5).after quickWithRoster).costPerPlayer) :=
  ⟨pending_amount_in_sync.1 rosterBodyWithCost 1 "AB12CD34" 7 _ (by decide) (Or.inr (Or.inl rfl)),
   pending_amount_in_sync.2.1 (Op.completeDetails detailsForSix 5) quickWithRoster _
     (by unfold PendingInSync; decide) (by intro _ _ _ h; cases h) (by decide),
   by decide,
   pending_amount_in_sync.2.2 quickWithRoster _ detailsForSix 5 (by decide)⟩

/-- C5 as stated fails: create with the flag `isQuickMatch: false`, none of the
keys `totalCost`, `maxPlayers`, `costPerPlayer` and a roster of one record
owing 3 passes the validation chain and the schema, is answered 201 and
stores the pending record owing 3 under `costPerPlayer = 0`: no path of the
hook is marked modified, so the hook does not touch the roster. -/
theorem pending_amount_counterexample :
    rosterBody.valid = true ∧
    (createMatch rosterBody 1 "AB12CD34" 7).1.status = 201 ∧
    (createMatch rosterBody 1 "AB12CD34" 7).2.map
        (fun m => (m.costPerPlayer,
          m.players.map (fun p => (p.user, p.paymentStatus, p.amountToPay)))) =
      some (Num.fin 0, [(2, PaymentStatus.pending, Num.fin 3)]) ∧
    ¬ PendingInSync (((createMatch rosterBody 1 "AB12CD34" 7).2).getD regularOpen) := by
  refine ⟨by decide, by decide, by decide, ?_⟩
  unfold PendingInSync
  decide

/-! ## Complete-details (C6) -/

/-- C6, the code at the failing input: on a quick match in `pending-details`
with four joined players, complete-details with total cost 500 and no
`actualPlayers` passes the validation chain, computes a player count of 4 and
125 per player, and is then rejected by `save()` (`maxPlayers` has `min: 6`):
the answer is the 400 of the error handler and the store keeps the match as it
was.  The same happens on an empty roster with `actualPlayers = 4`. -/
theorem completeDetails_four_players_rejected :
    (quickPending [1, 2, 3, 4]).isQuickMatch = true ∧
    (quickPending [1, 2, 3, 4]).status = MatchStatus.pendingDetails ∧
    detailsFiveHundred.valid = true ∧
    finalPlayerCount (quickPending [1, 2, 3, 4]) detailsFiveHundred = 4 ∧
    (completeDetailsDraft (quickPending [1, 2, 3, 4]) detailsFiveHundred 5).costPerPlayer =
      Num.fin 125 ∧
    completeDetails (quickPending [1, 2, 3, 4]) detailsFiveHundred 5 =
      { response := validationErrorResponse, stored := quickPending [1, 2, 3, 4] } ∧
    completeDetails (quickPending []) { detailsFiveHundred with actualPlayers := some 4 } 5 =
      { response := validationErrorResponse, stored := quickPending [] } := by
  decide

/-! ## The state machine (C7 to C10) -/

/-- C7 (amended): cancel has no status guard.  For a match in any status that
passes the schema validators under its new status, both cancel routes succeed,
store the match with status `cancelled` and nothing else changed, and emit one
`matchCancelled` event. -/
theorem cancelMatch_any_status (m : Match)
    (hvalid : ({ m with status := MatchStatus.cancelled } : Match).schemaValid = true) :
    cancelMatch m =
      { response :=
          { status := 200, success := true, message := some "Match cancelled successfully" }
        stored := { m with status := MatchStatus.cancelled }
        events := [Event.matchCancelled m.matchId
          "This match has been cancelled by the organizer." none] } ∧
    adminCancelMatch m none =
      { response :=
          { status := 200, success := true, message := some "Match cancelled successfully" }
        stored := { m with status := MatchStatus.cancelled }
        events := [Event.matchCancelled m.matchId
          "This match has been cancelled by admin." (some "Administrative action")] } := by
  constructor
  · unfold cancelMatch save
    rw [if_pos hvalid, preSave_untracked]
  · unfold adminCancelMatch save
    rw [if_pos hvalid, preSave_untracked]
    simp

/-- Witness of `cancelMatch_any_status`: a completed regular match. -/
theorem cancelMatch_any_status_witness :
    regularCompleted.status = MatchStatus.completed ∧
    (cancelMatch regularCompleted).stored.status = MatchStatus.cancelled ∧
    (cancelMatch regularCompleted).response.status = 200 :=
  ⟨rfl,
   by rw [(cancelMatch_any_status regularCompleted (by decide)).1],
   by rw [(cancelMatch_any_status regularCompleted (by decide)).1]⟩

/-- C7 as stated fails: cancelling a completed match succeeds, stores status
`cancelled` and emits `matchCancelled`, on the organizer route and on the admin
route. -/
theorem cancel_counterexample :
    regularCompleted.status = MatchStatus.completed ∧
    (cancelMatch regularCompleted).response.success = true ∧
    (cancelMatch regularCompleted).stored.status = MatchStatus.cancelled ∧
    (cancelMatch regularCompleted).events =
      [Event.matchCancelled "AB12CD34" "This match has been cancelled by the organizer." none] ∧
    (adminCancelMatch regularCompleted none).response.success = true ∧
    (adminCancelMatch regularCompleted none).stored.status = MatchStatus.cancelled := by
  decide

/-- C8: on a match whose status is not `open`, start answers 400, stores the
match unchanged and emits no event; on an open match that passes the schema
validators it stores the match with status `started` and nothing else
changed. -/
theorem startMatch_spec (m : Match) :
    (m.status ≠ MatchStatus.open →
      startMatch m =
        { response := { status := 400, success := false, message := some "Match cannot be started" }
          stored := m, events := [], played := [] }) ∧
    (m.status = MatchStatus.open → m.schemaValid = true →
      startMatch m =
        { response :=
            { status := 200, success := true, message := some "Match started successfully" }
          stored := { m with status := MatchStatus.started }
          events := [Event.matchStarted m.matchId "The match has started! Payments are now open."]
          played := [] }) := by
  constructor
  · intro h
    unfold startMatch
    rw [if_pos h]
    rfl
  · intro h hv
    have hv2 : ({ m with status := MatchStatus.started } : Match).schemaValid = true := by
      rw [schemaValid_status m MatchStatus.started (by rw [h]; rfl)]
      exact hv
    unfold startMatch save
    rw [if_neg (by simp [h]), if_pos hv2, preSave_untracked]

/-- Witness of `startMatch_spec`: starting the open regular match, and starting
it again once completed. -/
theorem startMatch_spec_witness :
    (startMatch regularCompleted).response.status = 400 ∧
    (startMatch regularCompleted).stored = regularCompleted ∧
    (startMatch regularOpen).stored = { regularOpen with status := MatchStatus.started } :=
  ⟨by rw [(startMatch_spec regularCompleted).1 (by decide)],
   by rw [(startMatch_spec regularCompleted).1 (by decide)],
   by rw [(startMatch_spec regularOpen).2 (by decide) (by decide)]⟩

/-- C9: on a started match that passes the schema validators, complete stores
status `completed` for a regular match and status `pending-details` (with the
actual end time and duration) for a quick match; in every other status it
answers 400 and stores the match unchanged. -/
theorem completeMatch_spec (m : Match) (now : Int) :
    (m.status = MatchStatus.started → m.schemaValid = true → m.isQuickMatch = false →
      (completeMatch m now).response.status = 200 ∧
      (completeMatch m now).stored = { m with status := MatchStatus.completed }) ∧
    (m.status = MatchStatus.started → m.schemaValid = true → m.isQuickMatch = true →
      (completeMatch m now).response.status = 200 ∧
      (completeMatch m now).stored =
        { m with
          status := MatchStatus.pendingDetails
          actualEndTime := some now
          actualDuration := some (roundMinutes (now - m.dateTime)) }) ∧
    (m.status ≠ MatchStatus.started →
      (completeMatch m now).response.status = 400 ∧ (completeMatch m now).stored = m ∧
      (completeMatch m now).events = [] ∧ (completeMatch m now).played = []) := by
  refine ⟨?_, ?_, ?_⟩
  · intro h hv hq
    have key := completeMatch_of_valid m now h
    rw [if_neg (by simp [hq] : ¬ m.isQuickMatch = true)] at key
    exact key (schemaValid_completed m hv)
  · intro h hv hq
    have key := completeMatch_of_valid m now h
    rw [if_pos hq] at key
    exact key (schemaValid_quick m MatchStatus.pendingDetails hq (some now)
      (some (roundMinutes (now - m.dateTime))) hv)
  · intro h
    unfold completeMatch
    rw [if_pos h]
    simp [reject]

/-- Witness of `completeMatch_spec`: completing the regular match once started. -/
theorem completeMatch_spec_witness :
    (completeMatch { regularOpen with status := MatchStatus.started } 9).stored =
      { regularOpen with status := MatchStatus.completed } ∧
    (completeMatch regularOpen 9).stored = regularOpen :=
  ⟨((completeMatch_spec { regularOpen with status := MatchStatus.started } 9).1
      (by decide) (by decide) (by decide)).2,
   ((completeMatch_spec regularOpen 9).2.2 (by decide)).2.1⟩

/-- C10: with the order `draft < open < started < pending-details < completed`,
no operation moves a cancelled match to another status, and no operation other
than cancel moves a match that is not cancelled to `cancelled` or to a status
lower in the order.  `Op.after` is the stored match after the operation,
whether it succeeded or not. -/
theorem status_monotone (op : Op) (m : Match) :
    (m.status = MatchStatus.cancelled → (op.after m).status = MatchStatus.cancelled) ∧
    (op ≠ Op.cancel → m.status ≠ MatchStatus.cancelled →
      (op.after m).status ≠ MatchStatus.cancelled ∧
      m.status.rank ≤ (op.after m).status.rank) := by
  cases hrun : op.run m with
  | none =>
    rw [after_of_none op m hrun]
    exact ⟨fun h => h, fun _ h => ⟨h, le_refl _⟩⟩
  | some saved =>
    rw [after_of_some op m saved hrun]
    rcases run_status op m saved hrun with h | ⟨h1, h2⟩ | ⟨h1, h2 | h2⟩ | ⟨h1, h2⟩ | ⟨h1, h2⟩
    · rw [h]; exact ⟨fun h => h, fun _ h => ⟨h, le_refl _⟩⟩
    · rw [h1, h2]; exact ⟨(fun h => by cases h), (fun _ _ => ⟨by decide, by decide⟩)⟩
    · rw [h1, h2]; exact ⟨(fun h => by cases h), (fun _ _ => ⟨by decide, by decide⟩)⟩
    · rw [h1, h2]; exact ⟨(fun h => by cases h), (fun _ _ => ⟨by decide, by decide⟩)⟩
    · rw [h1, h2]; exact ⟨(fun h => by cases h), (fun _ _ => ⟨by decide, by decide⟩)⟩
    · rw [h2]; exact ⟨fun _ => rfl, fun hne _ => absurd h1 hne⟩

/-- Witness of `status_monotone`: starting the open regular match. -/
theorem status_monotone_witness :
    (Op.start.after regularOpen).status ≠ MatchStatus.cancelled ∧
    regularOpen.status.rank ≤ (Op.start.after regularOpen).status.rank :=
  (status_monotone Op.start regularOpen).2 (by decide) (by decide)

/-! ## Guards of complete-details and join (C11, C12) -/

/-- C11: when the match is not a quick match or its status is not
`pending-details`, complete-details answers 400 and stores the match unchanged
(every field), emits no event and increments no statistics, whatever the
body. -/
theorem completeDetails_guard (m : Match) (b : CompleteDetailsBody) (now : Int)
    (h : m.isQuickMatch = false ∨ m.status ≠ MatchStatus.pendingDetails) :
    (completeDetails m b now).response.status = 400 ∧
    (completeDetails m b now).response.success = false ∧
    (completeDetails m b now).stored = m ∧
    (completeDetails m b now).events = [] ∧
    (completeDetails m b now).played = [] := by
  have hg : (!m.isQuickMatch || m.status != MatchStatus.pendingDetails) = true := by
    rcases h with h | h
    · simp [h]
    · simp [h]
  unfold completeDetails
  by_cases hv : b.valid = true
  · simp [hv, hg, reject]
  · simp [hv, reject]

/-- Witness of `completeDetails_guard`: complete-details on the regular match. -/
theorem completeDetails_guard_witness :
    regularOpen.isQuickMatch = false ∧
    (completeDetails regularOpen detailsFiveHundred 5).response.status = 400 ∧
    (completeDetails regularOpen detailsFiveHundred 5).stored = regularOpen :=
  ⟨rfl,
   (completeDetails_guard regularOpen detailsFiveHundred 5 (Or.inl rfl)).1,
   (completeDetails_guard regularOpen detailsFiveHundred 5 (Or.inl rfl)).2.2.1⟩

/-- C12: on a match whose status is not `open`, join answers 400 with 'This match
is not open for joining' before `addPlayer` is reached: the stored match (and
so the roster) is unchanged and no event is emitted. -/
theorem joinMatch_not_open (m : Match) (user : Nat) (now : Int)
    (h : m.status ≠ MatchStatus.open) :
    joinMatch m user now =
      { response :=
          { status := 400, success := false, message := some "This match is not open for joining" }
        stored := m, events := [], played := [] } := by
  unfold joinMatch
  rw [if_pos h]
  rfl

/-- Witness of `joinMatch_not_open`: the organizer cancels the started regular
match, then a join is attempted. -/
theorem joinMatch_not_open_witness :
    (cancelMatch { regularOpen with status := MatchStatus.started }).stored.status =
      MatchStatus.cancelled ∧
    joinMatch (cancelMatch { regularOpen with status := MatchStatus.started }).stored 7 5 =
      { response :=
          { status := 400, success := false, message := some "This match is not open for joining" }
        stored := (cancelMatch { regularOpen with status := MatchStatus.started }).stored
        events := [], played := [] } :=
  ⟨by decide,
   joinMatch_not_open (cancelMatch { regularOpen with status := MatchStatus.started }).stored 7 5
     (by decide)⟩

/-! ## The roster methods and the routes that call them (C13 to C18) -/

/-- C13: if the user has no participation record and the joined players are
fewer than `maxPlayers`, `addPlayer(userId)` without an amount returns the
match with exactly one record appended at the end of the roster, for that user,
with status `joined` and `amountToPay = costPerPlayer`; the earlier records are
the same, in the same order. -/
theorem addPlayer_appends (m : Match) (userId : Nat) (now : Int)
    (hnone : ∀ p ∈ m.players, p.user ≠ userId)
    (hfree : (m.joinedPlayers.length : Int) < m.maxPlayers) :
    m.addPlayer userId none now =
      Except.ok { m with
        players := m.players ++
          [{ user := userId, joinedAt := now, status := ParticipationStatus.joined
             amountToPay := m.costPerPlayer }] } :=
  addPlayer_of_new m userId now hnone hfree

/-- Witness of `addPlayer_appends`: the first join of the open regular match. -/
theorem addPlayer_appends_witness :
    regularOpen.addPlayer 1 none 5 =
      Except.ok { regularOpen with
        players := [{ user := 1, joinedAt := 5, status := ParticipationStatus.joined
                      amountToPay := Num.fin 100 }] } :=
  addPlayer_appends regularOpen 1 5 (by decide) (by decide)

/-- C14, the code at the failing input: user 7 has an opted-out record.  On the
full match for six the join of user 7 is answered 400 'Match is full' and
stores nothing; on the match with a free slot it is answered 200 and stores a
second record of user 7 behind the opted-out record, which stays as it was.
For every match and user, join stores the match as it was or with one record
appended: it never changes a record.  `addPlayer` on the stored roster, whose
references are identifiers, does reactivate the record. -/
theorem joinMatch_opted_out (m : Match) (user : Nat) (now : Int) :
    ((joinMatch m user now).stored = m ∨
      (joinMatch m user now).stored =
        { asStored m with
          players := (asStored m).players ++ [newPlayer user m.costPerPlayer now] }) ∧
    joinMatch fullSixWithOptedOut 7 5 = reject fullSixWithOptedOut "Match is full" ∧
    (joinMatch withOptedOut 7 5).response.status = 200 ∧
    (joinMatch withOptedOut 7 5).stored.players =
      [joinedRecord 1, { joinedRecord 7 with status := ParticipationStatus.optedOut },
       { user := 7, joinedAt := 5, amountToPay := Num.fin 100 }] ∧
    withOptedOut.addPlayer 7 none 5 =
      Except.ok { withOptedOut with
        players := [joinedRecord 1, { joinedRecord 7 with joinedAt := 5 }] } :=
  ⟨joinMatch_stored m user now, by decide, by decide, by decide, rfl⟩

/-- C15, the code at the failing input: user 3 has a joined record in the open
match of three records for ten players.  The join of user 3 is answered 200,
stores a second record of user 3 and emits `playerJoined`.  `addPlayer` on the
stored roster, whose references are identifiers, throws 'Player already
joined'. -/
theorem joinMatch_already_joined :
    withPaid.status = MatchStatus.open ∧
    joinMatch withPaid 3 5 =
      { response :=
          { status := 200, success := true, message := some "Successfully joined the match" }
        stored :=
          { withPaid with
            players := [joinedRecord 1, paidRecord 2, joinedRecord 3,
              { user := 3, joinedAt := 5, amountToPay := Num.fin 100 }] }
        events := [Event.playerJoined "AB12CD34" 3] } ∧
    withPaid.addPlayer 3 none 5 = Except.error "Player already joined" :=
  ⟨rfl, by decide, rfl⟩

/-- C16: for a match with a free slot and a user with no record, `addPlayer`
succeeds, `removePlayer` of the unpaid player then succeeds and gives back the
match as it was, and `addPlayer` again succeeds: the roster then holds exactly
one record of the user, with status `joined`, and one record more than at the
start.  The same holds when the payment status was set to any status other
than `paid` before the player left. -/
theorem join_leave_rejoin (m : Match) (userId : Nat) (t1 t2 t3 : Int)
    (hnone : ∀ p ∈ m.players, p.user ≠ userId)
    (hfree : (m.joinedPlayers.length : Int) < m.maxPlayers) :
    ∃ m1 m3 : Match,
      m.addPlayer userId none t1 = Except.ok m1 ∧
      m1.removePlayer userId t2 = Except.ok m ∧
      m.addPlayer userId none t3 = Except.ok m3 ∧
      m3.players.filter (isUser userId) =
        [{ user := userId, joinedAt := t3, status := ParticipationStatus.joined
           amountToPay := m.costPerPlayer }] ∧
      m3.players.length = m.players.length + 1 ∧
      (∀ (s : PaymentStatus) (d : PaymentDetails) (t : Int), s ≠ PaymentStatus.paid →
        ∃ m2 : Match,
          m1.updatePaymentStatus userId s d t = Except.ok m2 ∧
          m2.removePlayer userId t2 = Except.ok m) := by
  refine ⟨_, _, addPlayer_of_new m userId t1 hnone hfree, ?_,
    addPlayer_of_new m userId t3 hnone hfree, ?_, ?_,
    fun s d t hs => leave_after_unpaid_update m userId t1 t2 t s d hnone hs⟩
  · unfold Match.removePlayer
    simp only
    rw [find?_isUser_split userId m.players [] _ hnone rfl rfl]
    simp only
    rw [if_neg (by simp [newPlayer]),
      filter_not_isUser_append_new userId m.players _ hnone rfl rfl]
  · exact filter_isUser_append_new userId m.players _ hnone rfl rfl
  · simp

/-- Witness of `join_leave_rejoin`: user 1 on the open regular match. -/
theorem join_leave_rejoin_witness :
    ∃ m1 m3 : Match,
      regularOpen.addPlayer 1 none 1 = Except.ok m1 ∧
      m1.removePlayer 1 2 = Except.ok regularOpen ∧
      regularOpen.addPlayer 1 none 3 = Except.ok m3 ∧
      m3.players.filter (isUser 1) =
        [{ user := 1, joinedAt := 3, status := ParticipationStatus.joined
           amountToPay := regularOpen.costPerPlayer }] ∧
      m3.players.length = regularOpen.players.length + 1 :=
  have ⟨m1, m3, h1, h2, h3, h4, h5, _⟩ :=
    join_leave_rejoin regularOpen 1 1 2 3 (by decide) (by decide)
  ⟨m1, m3, h1, h2, h3, h4, h5⟩

/-- C17, the code at the failing input: user 2 has paid 100 in the open match
of three records.  The leave of user 2 is answered 400 'Player not found in
match' and stores the match as it was: the record is not marked `removed`.
`removePlayer` on the stored roster, whose references are identifiers, does
mark it. -/
theorem leaveMatch_paid :
    (withPaid.players.map (fun p => (p.user, p.paymentStatus, p.paidAmount))) =
      [(1, PaymentStatus.pending, Num.fin 0), (2, PaymentStatus.paid, Num.fin 100),
       (3, PaymentStatus.pending, Num.fin 0)] ∧
    leaveMatch withPaid 2 9 = reject withPaid "Player not found in match" ∧
    (leaveMatch withPaid 2 9).response.status = 400 ∧
    (leaveMatch withPaid 2 9).stored = withPaid ∧
    withPaid.removePlayer 2 9 =
      Except.ok { withPaid with
        players := [joinedRecord 1,
          { paidRecord 2 with status := ParticipationStatus.removed, leftEarly := true
                              leftAt := some 9 },
          joinedRecord 3] } :=
  ⟨by decide, by decide, by decide, by decide, rfl⟩

/-- C18, the code on every request: the leave of any user on any match is
answered 400, stores the match as it was and emits nothing; when the status
guard lets the request through the message is 'Player not found in match',
as for user 1 of the open match of three records, who is joined and has not
paid.  `removePlayer` on the stored roster, whose references are identifiers,
does remove that record. -/
theorem leaveMatch_never_removes (m : Match) (user : Nat) (now : Int) :
    (leaveMatch m user now).response.status = 400 ∧
    (leaveMatch m user now).response.success = false ∧
    (leaveMatch m user now).stored = m ∧
    (leaveMatch m user now).events = [] ∧
    leaveMatch withPaid 1 9 = reject withPaid "Player not found in match" ∧
    withPaid.removePlayer 1 9 =
      Except.ok { withPaid with players := [paidRecord 2, joinedRecord 3] } := by
  rw [leaveMatch_eq]
  exact ⟨rfl, rfl, rfl, rfl, by decide, rfl⟩

/-! ## Payment status updates (C19, C20) -/

/-- C19: if `updatePaymentStatus(user, 'paid', d)` succeeded, applying it again
with the same details succeeds and returns what a single application returns
at the later time: the roster is the same up to the `paidAt` stamp, so
`paidAmount`, `paymentStatus`, `paymentId`, `paymentMethod`, the roster length
and `totalCollected` are those of the first application; the `save()` that
follows accepts the match whenever it accepted it the first time. -/
theorem updatePaymentStatus_paid_idempotent (m m1 : Match) (userId : Nat) (d : PaymentDetails)
    (t1 t2 : Int)
    (h1 : m.updatePaymentStatus userId PaymentStatus.paid d t1 = Except.ok m1) :
    ∃ m2 : Match,
      m1.updatePaymentStatus userId PaymentStatus.paid d t2 = Except.ok m2 ∧
      m.updatePaymentStatus userId PaymentStatus.paid d t2 = Except.ok m2 ∧
      m2.players.map Player.withoutPaidAt = m1.players.map Player.withoutPaidAt ∧
      m2.players.map
          (fun p => (p.user, p.paidAmount, p.paymentStatus, p.paymentId, p.paymentMethod)) =
        m1.players.map
          (fun p => (p.user, p.paidAmount, p.paymentStatus, p.paymentId, p.paymentMethod)) ∧
      m2.players.length = m1.players.length ∧
      m2.totalCollected = m1.totalCollected ∧
      (m1.schemaValid = true → paymentUpdate m1 userId PaymentStatus.paid d t2 = some m2) := by
  obtain ⟨hfound, hm1⟩ := updatePaymentStatus_ok m m1 userId PaymentStatus.paid d t1 h1
  have hfound1 : (m1.players.find? (isUser userId)).isSome = true := by
    rw [hm1]
    simp only
    rw [find?_modifyFirst_isSome _ _ (isUser_applyPayment userId _ d t1)]
    exact hfound
  have hplayers : modifyFirst (isUser userId) (applyPayment PaymentStatus.paid d t2) m1.players =
      modifyFirst (isUser userId) (applyPayment PaymentStatus.paid d t2) m.players := by
    rw [hm1]
    simp only
    rw [modifyFirst_modifyFirst _ _ _ (isUser_applyPayment userId _ d t1)]
    simp only [applyPayment_paid_twice]
  have herase : (modifyFirst (isUser userId) (applyPayment PaymentStatus.paid d t2)
      m.players).map Player.withoutPaidAt = m1.players.map Player.withoutPaidAt := by
    rw [hm1]
    exact map_withoutPaidAt_modifyFirst _ _ _ (applyPayment_paid_withoutPaidAt d t1 t2) _
  have hm2 : m1.updatePaymentStatus userId PaymentStatus.paid d t2 =
      Except.ok
        { m with
          players :=
            modifyFirst (isUser userId) (applyPayment PaymentStatus.paid d t2) m.players } := by
    rw [updatePaymentStatus_of_found m1 userId _ d t2 hfound1, hplayers, hm1]
  refine ⟨_, hm2, updatePaymentStatus_of_found m userId _ d t2 hfound, herase, ?_, ?_, ?_, ?_⟩
  · have := congrArg (List.map
      (fun p : Player => (p.user, p.paidAmount, p.paymentStatus, p.paymentId, p.paymentMethod)))
      herase
    simpa [List.map_map, Function.comp_def, Player.withoutPaidAt] using this
  · have := congrArg List.length herase
    simpa using this
  · show collected _ = collected m1.players
    rw [← collected_withoutPaidAt, herase, collected_withoutPaidAt]
  · intro hv
    unfold paymentUpdate
    rw [hm2]
    simp only
    unfold save
    rw [preSave_untracked, if_pos]
    have e : ({ m with players := m1.players } : Match) = m1 := by rw [hm1]
    rw [schemaValid_players_congr m _ _ (all_schemaValid_of_withoutPaidAt _ _ herase), e]
    exact hv

/-- Witness of `updatePaymentStatus_paid_idempotent`: the cash payment of player 1
applied twice. -/
theorem updatePaymentStatus_paid_idempotent_witness :
    ∃ m2 : Match,
      ((withPaid.updatePaymentStatus 1 PaymentStatus.paid cashHundred 5).toOption.getD
          withPaid).updatePaymentStatus 1 PaymentStatus.paid cashHundred 6 = Except.ok m2 ∧
      m2.totalCollected = Num.fin 200 := by
  obtain ⟨m2, h1, _, _, _, _, h6, _⟩ :=
    updatePaymentStatus_paid_idempotent withPaid
      ((withPaid.updatePaymentStatus 1 PaymentStatus.paid cashHundred 5).toOption.getD withPaid)
      1 cashHundred 5 6 rfl
  exact ⟨m2, h1, by rw [h6]; decide⟩

/-- C20, the code at the failing input: `updatePaymentStatus(user, 'paid', details)`
with the amount 0 supplied, on a player who owes 100, stores `paidAmount = 100`
(`paymentDetails.amount || player.amountToPay` takes 0 for absent), not 0; the
other assignments are as supplied. -/
theorem updatePaymentStatus_zero_amount :
    cashZero.amount = some 0 ∧
    withPaid.updatePaymentStatus 1 PaymentStatus.paid cashZero 5 =
      Except.ok { withPaid with
        players := [
          { joinedRecord 1 with
            paymentStatus := PaymentStatus.paid, paidAmount := Num.fin 100
            paymentMethod := some "cash", paymentId := some "cash_1", paidAt := some 5 },
          paidRecord 2, joinedRecord 3] } :=
  ⟨rfl, rfl⟩

/-! ## Creation of a quick match and the bounds of `maxPlayers` (C21, C22) -/

/-- C21, the code at the failing input: a quick match created with nothing but the
flag (and a requested status `draft`) is stored with venue name 'TBD' and
status `started`, and with the title 'Quick Match', without the identifier:
the route assigns `matchData.title || 'Quick Match'` before the schema default
'Quick Match <matchId>' can apply. -/
theorem createMatch_quick_title :
    ((createMatch quickBody 1 "AB12CD34" 7).2.map
        (fun m => (m.title, m.venueName, m.status))) =
      some ("Quick Match", "TBD", MatchStatus.started) ∧
    "Quick Match" ≠ "Quick Match " ++ "AB12CD34" := by
  decide

/-- C22: the validators of `maxPlayers` accept `v` for a regular match exactly
when `6 <= v <= 22` and for a quick match exactly when `6 <= v <= 1000`; a
match that passes the schema validators still passes them with `maxPlayers`
set to `v` exactly in that case. -/
theorem maxPlayers_validation (v : Int) :
    (maxPlayersValid false v = true ↔ 6 ≤ v ∧ v ≤ 22) ∧
    (maxPlayersValid true v = true ↔ 6 ≤ v ∧ v ≤ 1000) ∧
    (∀ m : Match, m.schemaValid = true →
      (({ m with maxPlayers := v } : Match).schemaValid = true ↔
        6 ≤ v ∧ v ≤ (if m.isQuickMatch then 1000 else 22))) := by
  refine ⟨by simp [maxPlayersValid], by simp [maxPlayersValid], ?_⟩
  intro m hm
  unfold Match.schemaValid at hm ⊢
  simp only [Bool.and_eq_true] at hm ⊢
  obtain ⟨⟨⟨⟨⟨⟨⟨⟨⟨h1, h2⟩, h3⟩, h4⟩, h5⟩, h6⟩, _⟩, h8⟩, h9⟩, h10⟩ := hm
  constructor
  · intro h
    have := h.1.1.1.2
    cases hq : m.isQuickMatch <;> simp [maxPlayersValid, hq] at this ⊢ <;> exact this
  · intro hv
    refine ⟨⟨⟨⟨⟨⟨⟨⟨⟨h1, h2⟩, h3⟩, h4⟩, h5⟩, h6⟩, ?_⟩, h8⟩, h9⟩, h10⟩
    cases hq : m.isQuickMatch <;> simp [maxPlayersValid, hq] at hv ⊢ <;> exact hv

/-- Witness of `maxPlayers_validation`: 22 players on the regular match. -/
theorem maxPlayers_validation_witness :
    ({ regularOpen with maxPlayers := 22 } : Match).schemaValid = true ∧
    ({ regularOpen with maxPlayers := 23 } : Match).schemaValid = false :=
  ⟨((maxPlayers_validation 22).2.2 regularOpen (by decide)).mpr (by decide),
   by
    have h := (maxPlayers_validation 23).2.2 regularOpen (by decide)
    cases hv : ({ regularOpen with maxPlayers := 23 } : Match).schemaValid with
    | false => rfl
    | true => exact absurd (h.mp hv) (by decide)⟩

/-! ## Authorization (C23) -/

/-- C23, the code on every guarded route: behind `loadMatch` the middleware
answers 403 to every user whose role is not `admin`, the organizer included,
and the stored match is as it was; for an admin the route is its handler.  So
the organizer (user 1, role `player`) cannot start the open regular match.  On
a match whose `organizer` holds the identifier the middleware does let the
organizer through. -/
theorem guarded_organizer_forbidden (handler : Match → Outcome) (m : Match) (u : Nat) :
    guarded handler m { id := u, role := Role.player } =
      { response :=
          { status := 403, success := false
            message := some "Only match organizer or admin can perform this action" }
        stored := m } ∧
    guarded handler m { id := u, role := Role.admin } = handler m ∧
    (∀ (b : CompleteDetailsBody) (now : Int),
      (startRoute m { id := u, role := Role.player }).stored = m ∧
      (startRoute m { id := u, role := Role.player }).events = [] ∧
      (completeRoute now m { id := u, role := Role.player }).stored = m ∧
      (completeRoute now m { id := u, role := Role.player }).events = [] ∧
      (completeDetailsRoute b now m { id := u, role := Role.player }).stored = m ∧
      (completeDetailsRoute b now m { id := u, role := Role.player }).events = [] ∧
      (cancelRoute m { id := u, role := Role.player }).stored = m ∧
      (cancelRoute m { id := u, role := Role.player }).events = []) ∧
    regularOpen.organizer = 1 ∧
    startRoute regularOpen { id := 1, role := Role.player } =
      { response :=
          { status := 403, success := false
            message := some "Only match organizer or admin can perform this action" }
        stored := regularOpen } ∧
    (startRoute regularOpen { id := 7, role := Role.admin }).stored.status = MatchStatus.started ∧
    requireMatchOrganizer (some regularOpen) (some { id := 1, role := Role.player }) = none ∧
    (requireMatchOrganizer (some regularOpen) (some { id := 2, role := Role.player })).map
      Response.status = some 403 ∧
    (requireMatchOrganizer none (some { id := 1 })).map Response.status = some 500 ∧
    (requireMatchOrganizer (some regularOpen) none).map Response.status = some 401 :=
  ⟨rfl, rfl, fun _ _ => ⟨rfl, rfl, rfl, rfl, rfl, rfl, rfl, rfl⟩, rfl, by decide, by decide,
   by decide, by decide, by decide, by decide⟩

/-! ## Error handler (C24) -/

/-- C24, the code on every error whose `code` is the number 11000: `errorHandler`
sends no response.  After the duplicate-key branch has built the
`DuplicateError`, the test `err.code && err.code.startsWith('auth/')` calls
`startsWith` on the number and throws a `TypeError` (an earlier `TypeError`
when `err.keyValue` or the `errors` of a `ValidationError` is missing). -/
theorem errorHandler_duplicate_key_throws (development : Bool) (err : Err) :
    errorHandler development { err with code := some (ErrCode.num 11000) } =
      Except.error
        (if err.keyValue.isNone || (decide (err.name = "ValidationError") && err.errors.isNone)
          then "TypeError: Cannot convert undefined or null to object"
          else "TypeError: err.code.startsWith is not a function") := by
  unfold errorHandler
  cases hk : err.keyValue with
  | none => simp [hk, bind, Except.bind, throw, throwThe, MonadExceptOf.throw]
  | some keys =>
    by_cases hv : err.name = "ValidationError"
    · cases he : err.errors with
      | none =>
        simp [hk, hv, he, bind, Except.bind, pure, Except.pure, throw, throwThe,
          MonadExceptOf.throw]
      | some es =>
        simp [hk, hv, he, bind, Except.bind, pure, Except.pure, throw, throwThe,
          MonadExceptOf.throw]
    · simp [hk, hv, bind, Except.bind, pure, Except.pure, throw, throwThe,
        MonadExceptOf.throw]

/-! ## Rate limiting (C25) -/

/-- C25: for a limiter `userRateLimit(maxRequests, windowMs)` starting with an
empty map and every sequence of requests with non-decreasing timestamps, for
every key and every time `t`, the requests of that key that were let through
with a timestamp in `(t - windowMs, t]` are at most `maxRequests`. -/
theorem userRateLimit_window_bound (maxRequests : Nat) (windowMs : Int)
    (requests : List (String × Int))
    (hsorted : List.Pairwise (fun a b => a.2 ≤ b.2) requests) (key : String) (t : Int) :
    countInWindow (served maxRequests windowMs (fun _ => []) requests) key windowMs t ≤
      maxRequests := by
  cases requests with
  | nil => simp [served, countInWindow]
  | cons r rest =>
    have hinv : RateInv maxRequests windowMs (fun _ => []) [] r.2 :=
      ⟨by simp, by intro k x _; rfl, by intro k t; simp [countInWindow]⟩
    have := served_window_bound maxRequests windowMs (r :: rest) (fun _ => []) [] r.2 hinv
      (by
        intro q hq
        rcases List.mem_cons.mp hq with h | h
        · rw [h]
        · exact (List.pairwise_cons.mp hsorted).1 q h)
      hsorted key t
    simpa using this

/-- Witness of `userRateLimit_window_bound`: the limiter of register, 5 requests
per 15 minutes, lets through the first five of six requests. -/
theorem userRateLimit_window_bound_witness :
    served 5 (15 * 60 * 1000) (fun _ => []) sixRequests = sixRequests.take 5 ∧
    countInWindow (served 5 (15 * 60 * 1000) (fun _ => []) sixRequests) "10.0.0.1"
      (15 * 60 * 1000) 5000 ≤ 5 :=
  ⟨by decide,
   userRateLimit_window_bound 5 (15 * 60 * 1000) sixRequests (by decide) "10.0.0.1" 5000⟩

/-! ## Divisor of complete-details and quick matches (C26, C27) -/

/-- C26, the code at the failing input: on a quick match in `pending-details`
with an empty roster, a body without `actualPlayers` passes the validation
chain, the player count used as divisor is 0 and the computed `costPerPlayer`
is `Infinity` (`NaN` for a total cost of 0, which the cast of the path
refuses); `save()` then rejects the document and nothing is stored. -/
theorem completeDetails_zero_divisor :
    (quickPending []).isQuickMatch = true ∧
    (quickPending []).status = MatchStatus.pendingDetails ∧
    detailsFiveHundred.valid = true ∧
    finalPlayerCount (quickPending []) detailsFiveHundred = 0 ∧
    (completeDetailsDraft (quickPending []) detailsFiveHundred 5).costPerPlayer = Num.posInf ∧
    ceilDiv 0 (finalPlayerCount (quickPending []) { detailsFiveHundred with totalCost := some 0 }) =
      Num.nan ∧
    completeDetails (quickPending []) { detailsFiveHundred with totalCost := some 0 } 5 =
      { response := validationErrorResponse, stored := quickPending [] } ∧
    completeDetails (quickPending []) detailsFiveHundred 5 =
      { response := validationErrorResponse, stored := quickPending [] } := by
  decide

/-- C27: a quick match in a state the engine produces (created by `POST /`, then
any sequence of successful operations) never has status `open`; every join on
it is answered 400 'This match is not open for joining', stores the match
unchanged, emits nothing and adds no player. -/
theorem quick_match_never_open (m : Match) (h : Reachable m) (hq : m.isQuickMatch = true) :
    m.status ≠ MatchStatus.open ∧
    ∀ (user : Nat) (now : Int),
      joinMatch m user now = reject m "This match is not open for joining" ∧
      (joinMatch m user now).response.status = 400 ∧
      (joinMatch m user now).stored = m ∧
      (Op.join user now).run m = none := by
  have hst := reachable_engineInv m h hq
  refine ⟨hst, fun user now => ?_⟩
  have hj : joinMatch m user now = reject m "This match is not open for joining" := by
    unfold joinMatch
    rw [if_pos hst]
  rw [hj]
  exact ⟨rfl, rfl, rfl, by simp [Op.run, hj, reject_result]⟩

/-- Witness of `quick_match_never_open`: the quick match just created. -/
theorem quick_match_never_open_witness :
    Reachable (((createMatch quickBody 1 "AB12CD34" 7).2).getD regularOpen) ∧
    (((createMatch quickBody 1 "AB12CD34" 7).2).getD regularOpen).status = MatchStatus.started ∧
    (joinMatch (((createMatch quickBody 1 "AB12CD34" 7).2).getD regularOpen) 7 9).stored =
      ((createMatch quickBody 1 "AB12CD34" 7).2).getD regularOpen :=
  have hr : Reachable (((createMatch quickBody 1 "AB12CD34" 7).2).getD regularOpen) :=
    Reachable.create quickBody 1 "AB12CD34" 7 _ (by decide)
  ⟨hr, by decide, ((quick_match_never_open _ hr (by decide)).2 7 9).2.2.1⟩

/-! ## Payment record statuses (C28) -/

/-- C28, the code on the event `refund.created`: `handleRefundWebhook` assigns the
status 'refund_pending', which is not a value of the schema's enum, and the
`save()` that follows rejects the payment. -/
theorem handleRefundWebhook_status (p : Payment) (now : Int) :
    (handleRefundDraft "refund.created" p).status = "refund_pending" ∧
    paymentStatuses.contains "refund_pending" = false ∧
    handleRefundWebhook "refund.created" p now = none := by
  have h1 : (handleRefundDraft "refund.created" p).status = "refund_pending" := rfl
  refine ⟨h1, by decide, ?_⟩
  unfold handleRefundWebhook Payment.save Payment.schemaValid
  rw [h1]
  have : paymentStatuses.contains "refund_pending" = false := by decide
  rw [this]
  simp

/-! ## One record per user (C29, C30) -/

/-- C29, the code at the failing input: the open match of three records has one
record per user.  The join of user 3, who has a record, succeeds (`addPlayer`
and `save()` both succeed) and the stored roster has two records of user 3. -/
theorem joinMatch_duplicate_user :
    (withPaid.players.map Player.user).Nodup ∧
    (joinMatch withPaid 3 5).response.success = true ∧
    (joinMatch withPaid 3 5).stored.players.map Player.user = [1, 2, 3, 3] ∧
    ¬ ((joinMatch withPaid 3 5).stored.players.map Player.user).Nodup ∧
    ((joinMatch withPaid 3 5).stored.players.filter (isUser 3)).length = 2 := by
  decide

/-- C30, the code at the failing input: user 2 has paid and left, the record has
status `removed`.  The join of user 2 is answered 200 and stores a new record
of user 2 with status `joined` behind the removed one: user 2 is among the
joined players again.  `addPlayer` on the stored roster, whose references are
identifiers, throws 'Player already joined'. -/
theorem joinMatch_removed_rejoins :
    (withRemoved.players.map (fun p => (p.user, p.status))) =
      [(1, ParticipationStatus.joined), (2, ParticipationStatus.removed)] ∧
    (joinMatch withRemoved 2 10).response.status = 200 ∧
    (joinMatch withRemoved 2 10).stored.players.map (fun p => (p.user, p.status)) =
      [(1, ParticipationStatus.joined), (2, ParticipationStatus.removed),
       (2, ParticipationStatus.joined)] ∧
    (joinMatch withRemoved 2 10).stored.joinedPlayers.map Player.user = [1, 2] ∧
    withRemoved.addPlayer 2 none 10 = Except.error "Player already joined" := by
  refine ⟨by decide, by decide, by decide, by decide, rfl⟩

end PlaySplit
